import Mathlib

/-!
# Verification of the RaceDayAI ETL pipeline

A shallow embedding of `research/notebooks/run_etl.py`: the leaf string and
numeric utilities, the five source processors, the quality filter, the
combiner with its cohort statistics, and the athlete-profile builder,
together with theorems settling the specification's claims about them.

Conventions of the embedding:
* pandas/NumPy `NaN` (a missing cell) is modelled as `Option.none`; a present
  value of a numeric cell is a rational number (`ℚ`).  Floating-point
  arithmetic on present values is modelled as exact rational arithmetic.
* a pandas column operation is modelled element-wise: the vectorized source
  functions act the same on every element, so each is embedded as a scalar
  function applied through `List.map` / `List.filter`.
* `DataFrame`s are lists of records; `groupby` is modelled by filtering on a
  decidable key; pandas drops rows with a null group key, which the key
  extractors mirror by returning `none`.
-/

namespace RaceDayAI

/-! ## Character-list string utilities

pandas string methods (`.str.strip`, `.str.split`, `.str.lower`, ...) are
modelled on `List Char`.  Python's `str.strip` removes leading and trailing
whitespace. -/

/-- `str.strip`: drop leading and trailing whitespace characters. -/
def trimChars (l : List Char) : List Char :=
  ((l.dropWhile Char.isWhitespace).reverse.dropWhile Char.isWhitespace).reverse

/-- `str.lower()` (ASCII case mapping, which covers every value the
pipeline compares). -/
def lowerStr (s : String) : String := String.mk (s.toList.map Char.toLower)

/-- `str.upper()` (ASCII case mapping). -/
def upperStr (s : String) : String := String.mk (s.toList.map Char.toUpper)

/-- `str.split(sep)`: split a character list on a separator character.
Splitting the empty list yields one empty field, as in Python. -/
def splitOnChar (sep : Char) : List Char → List (List Char)
  | [] => [[]]
  | c :: cs =>
    if c = sep then [] :: splitOnChar sep cs
    else
      match splitOnChar sep cs with
      | h :: t => (c :: h) :: t
      | [] => [[c]]

/-- Numeric value of a list of decimal digit characters (most significant
first). -/
def natOfDigits (l : List Char) : ℕ :=
  l.foldl (fun a c => a * 10 + (c.toNat - 48)) 0

/-- `pd.to_numeric(x, errors='coerce')` on a single cell, for the numeral
shapes the pipeline's clock strings produce: optional sign, decimal digits,
optionally one decimal point.  Unparseable text coerces to `NaN` (`none`).
Exponent notation is not modelled; no clock field produces it. -/
def toNumericChars (l0 : List Char) : Option ℚ :=
  let l := trimChars l0
  let sgn : ℚ := if l.head? = some '-' then -1 else 1
  let body := if l.head? = some '-' ∨ l.head? = some '+' then l.tail else l
  match splitOnChar '.' body with
  | [ip] =>
    if ip ≠ [] ∧ ip.all Char.isDigit then some (sgn * natOfDigits ip) else none
  | [ip, fp] =>
    if (ip ++ fp) ≠ [] ∧ (ip ++ fp).all Char.isDigit then
      some (sgn * ((natOfDigits ip : ℚ) + (natOfDigits fp : ℚ) / 10 ^ fp.length))
    else none
  | _ => none

/-- `pd.to_numeric` on an `Option String` cell: `NaN` stays `NaN`. -/
def toNumericOpt (v : Option String) : Option ℚ :=
  v.bind fun s => toNumericChars s.toList

/-- `series.astype(str)` on one cell: a missing value stringifies to the
literal text `"nan"`, as float `NaN` does in pandas. -/
def pdStr (v : Option String) : String :=
  match v with
  | some s => s
  | none => "nan"

/-! ## `hms_to_sec` -/

/-- The sentinel tokens of `hms_to_sec` that are mapped to `NaN` before any
parsing: empty text, zero clock readings, dashes, the non-finish codes, and
the stringified missing values. -/
def hmsBadTokens : List (List Char) :=
  ["", "0:00", "00:00", "0:00:00", "00:00:00", "--", "DNS", "DNF", "DQ",
   "nan", "None", "NaN", "<NA>"].map String.toList

/-- `hms_to_sec` on one cell: strip, reject sentinel tokens, then branch on
the number of `:` separators — `H:MM:SS`, `MM:SS`, or bare numeric seconds.
Any other shape, or an unparseable part, yields `NaN`. -/
def hms_to_sec (s : String) : Option ℚ :=
  let t := trimChars s.toList
  if t ∈ hmsBadTokens then none
  else
    match splitOnChar ':' t with
    | [a, b, c] =>
      match toNumericChars a, toNumericChars b, toNumericChars c with
      | some x, some y, some z => some (x * 3600 + y * 60 + z)
      | _, _, _ => none
    | [a, b] =>
      match toNumericChars a, toNumericChars b with
      | some x, some y => some (x * 60 + y)
      | _, _ => none
    | [a] => toNumericChars a
    | _ => none

/-- `hms_to_sec` applied to an `Option String` cell: the source stringifies
the column first, so a missing cell becomes `"nan"`, a sentinel token. -/
def hmsOpt (v : Option String) : Option ℚ :=
  hms_to_sec (pdStr v)

/-! ## `norm_gender`, `extract_ag`, `extract_band` -/

/-- `norm_gender` on one cell: stringify, strip, uppercase, then map the
two recognized spellings of each gender; anything else becomes `NaN`. -/
def norm_gender (v : Option String) : Option String :=
  let s := upperStr (String.mk (trimChars (pdStr v).toList))
  if s = "M" ∨ s = "MALE" then some "M"
  else if s = "F" ∨ s = "FEMALE" then some "F"
  else none

/-- Take exactly `n` decimal digits from the front of a character list,
returning them and the remainder; fails if fewer are available. -/
def takeDigits : ℕ → List Char → Option (List Char × List Char)
  | 0, rest => some ([], rest)
  | _ + 1, [] => none
  | n + 1, c :: rest =>
    if c.isDigit then (takeDigits n rest).map (fun p => (c :: p.1, p.2))
    else none

/-- Match the regular expression `\d{2,3}-\d{2,3}` at the head of a
character list (greedy: three digits are preferred over two on each side),
returning the matched text. -/
def matchDashAG (l : List Char) : Option (List Char) :=
  let side (k : ℕ) : Option (List Char) := do
    let (d1, r1) ← takeDigits k l
    match r1 with
    | '-' :: r2 =>
      let tail (k2 : ℕ) : Option (List Char) := do
        let (d2, _) ← takeDigits k2 r2
        pure (d1 ++ '-' :: d2)
      (tail 3).orElse fun _ => tail 2
    | _ => none
  (side 3).orElse fun _ => side 2

/-- Match the regular expression `\d{2,3}\+` at the head of a character
list, returning the matched text. -/
def matchPlusAG (l : List Char) : Option (List Char) :=
  let side (k : ℕ) : Option (List Char) := do
    let (d1, r1) ← takeDigits k l
    match r1 with
    | '+' :: _ => pure (d1 ++ ['+'])
    | _ => none
  (side 3).orElse fun _ => side 2

/-- Leftmost match of a head-anchored matcher over a character list, as
`Series.str.extract` returns the first (leftmost) regex match. -/
def scanFirst (m : List Char → Option (List Char)) : List Char → Option (List Char)
  | [] => m []
  | c :: cs =>
    match m (c :: cs) with
    | some r => some r
    | none => scanFirst m cs

/-- `extract_ag` on one cell: the first `NN-NN`-shaped age group in the
stringified division text, falling back to the first `NN+`-shaped one. -/
def extract_ag (v : Option String) : Option String :=
  let s := (pdStr v).toList
  match scanFirst matchDashAG s with
  | some r => some (String.mk r)
  | none => (scanFirst matchPlusAG s).map String.mk

/-- Match the regular expression `\d{2,3}` at the head of a character list
(greedy), returning the matched digits. -/
def matchBand (l : List Char) : Option (List Char) :=
  ((takeDigits 3 l).map Prod.fst).orElse fun _ => (takeDigits 2 l).map Prod.fst

/-- `extract_band` on one cell: the first 2–3 digit run of the age-group
text, as a number; `NaN` propagates. -/
def extract_band (ag : Option String) : Option ℚ :=
  ag.bind fun s => (scanFirst matchBand s.toList).bind fun d => toNumericChars d

/-! ## SHA-256 and `hash_athletes`

The identity hasher truncates `hashlib.sha256(key).hexdigest()` to 16 hex
characters.  SHA-256 (FIPS 180-4) is embedded over `ℕ` with explicit
reduction modulo `2 ^ 32`. -/

/-- Reduce a natural number to a 32-bit word. -/
def w32 (x : ℕ) : ℕ := x % 4294967296

/-- Rotate a 32-bit word right by `n` bits. -/
def rotr32 (x n : ℕ) : ℕ := w32 ((x >>> n) ||| (x <<< (32 - n)))

/-- Bitwise complement of a 32-bit word. -/
def not32 (x : ℕ) : ℕ := x ^^^ 4294967295

/-- SHA-256 choice function. -/
def sha2Ch (x y z : ℕ) : ℕ := (x &&& y) ^^^ (not32 x &&& z)

/-- SHA-256 majority function. -/
def sha2Maj (x y z : ℕ) : ℕ := (x &&& y) ^^^ (x &&& z) ^^^ (y &&& z)

/-- SHA-256 big sigma-0. -/
def bsig0 (x : ℕ) : ℕ := rotr32 x 2 ^^^ rotr32 x 13 ^^^ rotr32 x 22

/-- SHA-256 big sigma-1. -/
def bsig1 (x : ℕ) : ℕ := rotr32 x 6 ^^^ rotr32 x 11 ^^^ rotr32 x 25

/-- SHA-256 small sigma-0. -/
def ssig0 (x : ℕ) : ℕ := rotr32 x 7 ^^^ rotr32 x 18 ^^^ (x >>> 3)

/-- SHA-256 small sigma-1. -/
def ssig1 (x : ℕ) : ℕ := rotr32 x 17 ^^^ rotr32 x 19 ^^^ (x >>> 10)

/-- The 64 SHA-256 round constants (FIPS 180-4, written in decimal). -/
def sha2K : List ℕ :=
  [1116352408, 1899447441, 3049323471, 3921009573,
   961987163, 1508970993, 2453635748, 2870763221,
   3624381080, 310598401, 607225278, 1426881987,
   1925078388, 2162078206, 2614888103, 3248222580,
   3835390401, 4022224774, 264347078, 604807628,
   770255983, 1249150122, 1555081692, 1996064986,
   2554220882, 2821834349, 2952996808, 3210313671,
   3336571891, 3584528711, 113926993, 338241895,
   666307205, 773529912, 1294757372, 1396182291,
   1695183700, 1986661051, 2177026350, 2456956037,
   2730485921, 2820302411, 3259730800, 3345764771,
   3516065817, 3600352804, 4094571909, 275423344,
   430227734, 506948616, 659060556, 883997877,
   958139571, 1322822218, 1537002063, 1747873779,
   1955562222, 2024104815, 2227730452, 2361852424,
   2428436474, 2756734187, 3204031479, 3329325298]

/-- The SHA-256 initial hash state. -/
def sha2H0 : ℕ × ℕ × ℕ × ℕ × ℕ × ℕ × ℕ × ℕ :=
  (1779033703, 3144134277, 1013904242, 2773480762,
   1359893119, 2600822924, 528734635, 1541459225)

/-- SHA-256 message padding: append `0x80`, zero bytes, and the 64-bit
big-endian bit length, to a multiple of 64 bytes. -/
def sha2Pad (msg : List ℕ) : List ℕ :=
  let len := msg.length
  let k := (64 - (len + 9) % 64) % 64
  let bits := 8 * len
  msg ++ 0x80 :: List.replicate k 0 ++
    [bits >>> 56 % 256, bits >>> 48 % 256, bits >>> 40 % 256, bits >>> 32 % 256,
     bits >>> 24 % 256, bits >>> 16 % 256, bits >>> 8 % 256, bits % 256]

/-- Split a list into chunks of `n` elements (`n > 0`), structurally
recursive on a fuel bounded by the list length (each step consumes at least
one element, so the fuel never runs out). -/
def chunksOfFuel (n : ℕ) : ℕ → List α → List (List α)
  | _, [] => []
  | 0, _ :: _ => []
  | fuel + 1, x :: xs => (x :: xs.take (n - 1)) :: chunksOfFuel n fuel (xs.drop (n - 1))

/-- Split a list into chunks of `n` elements (`n > 0`). -/
def chunksOf (n : ℕ) (l : List α) : List (List α) :=
  chunksOfFuel n l.length l

/-- Pack four consecutive bytes into big-endian 32-bit words. -/
def bytesToWords : List ℕ → List ℕ
  | b0 :: b1 :: b2 :: b3 :: rest =>
    (b0 <<< 24 ||| b1 <<< 16 ||| b2 <<< 8 ||| b3) :: bytesToWords rest
  | _ => []

/-- Extend a 16-word message block to the 64-word SHA-256 schedule. -/
def sha2Schedule (ws : Array ℕ) : Array ℕ :=
  (List.range 48).foldl
    (fun w _ =>
      let t := w.size
      w.push (w32 (ssig1 (w.getD (t - 2) 0) + w.getD (t - 7) 0 +
                   ssig0 (w.getD (t - 15) 0) + w.getD (t - 16) 0)))
    ws

/-- One SHA-256 compression round. -/
def sha2Round (st : ℕ × ℕ × ℕ × ℕ × ℕ × ℕ × ℕ × ℕ) (kw : ℕ × ℕ) :
    ℕ × ℕ × ℕ × ℕ × ℕ × ℕ × ℕ × ℕ :=
  let (a, b, c, d, e, f, g, h) := st
  let t1 := w32 (h + bsig1 e + sha2Ch e f g + kw.1 + kw.2)
  let t2 := w32 (bsig0 a + sha2Maj a b c)
  (w32 (t1 + t2), a, b, c, w32 (d + t1), e, f, g)

/-- Process one 64-byte block into the running hash state. -/
def sha2Block (st : ℕ × ℕ × ℕ × ℕ × ℕ × ℕ × ℕ × ℕ) (block : List ℕ) :
    ℕ × ℕ × ℕ × ℕ × ℕ × ℕ × ℕ × ℕ :=
  let w := sha2Schedule (Array.mk (bytesToWords block))
  let (a, b, c, d, e, f, g, h) := (sha2K.zip w.toList).foldl sha2Round st
  let (h0, h1, h2, h3, h4, h5, h6, h7) := st
  (w32 (h0 + a), w32 (h1 + b), w32 (h2 + c), w32 (h3 + d),
   w32 (h4 + e), w32 (h5 + f), w32 (h6 + g), w32 (h7 + h))

/-- SHA-256 of a byte sequence, as the eight 32-bit words of the digest. -/
def sha256Words (msg : List ℕ) : List ℕ :=
  let (h0, h1, h2, h3, h4, h5, h6, h7) :=
    (chunksOf 64 (sha2Pad msg)).foldl sha2Block sha2H0
  [h0, h1, h2, h3, h4, h5, h6, h7]

/-- Lowercase hexadecimal digit for a value below 16. -/
def hexDigit (n : ℕ) : Char :=
  if n < 10 then Char.ofNat (48 + n) else Char.ofNat (87 + n)

/-- The eight hex characters of one 32-bit word, most significant first. -/
def wordHexChars (w : ℕ) : List Char :=
  [hexDigit (w >>> 28 % 16), hexDigit (w >>> 24 % 16), hexDigit (w >>> 20 % 16),
   hexDigit (w >>> 16 % 16), hexDigit (w >>> 12 % 16), hexDigit (w >>> 8 % 16),
   hexDigit (w >>> 4 % 16), hexDigit (w % 16)]

/-- UTF-8 encoding of one character, as byte values. -/
def utf8Bytes (c : Char) : List ℕ :=
  let n := c.toNat
  if n < 128 then [n]
  else if n < 2048 then [192 + n / 64, 128 + n % 64]
  else if n < 65536 then [224 + n / 4096, 128 + n / 64 % 64, 128 + n % 64]
  else [240 + n / 262144, 128 + n / 4096 % 64, 128 + n / 64 % 64, 128 + n % 64]

/-- `key.encode()`: the UTF-8 bytes of a string. -/
def strBytes (s : String) : List ℕ :=
  (s.toList.map utf8Bytes).flatten

/-- `hashlib.sha256(key.encode()).hexdigest()[:16]`: the first sixteen hex
characters of the SHA-256 digest of a string. -/
def sha256hex16 (key : String) : String :=
  String.mk (((sha256Words (strBytes key)).map wordHexChars).flatten.take 16)

/-- `str.lower` composed with `str.strip` after `fillna('')`: a missing cell
becomes the empty string (`fillna` runs before `astype(str)`), then the text
is stripped and lowercased. -/
def fillTrimLower (v : Option String) : String :=
  lowerStr (String.mk (trimChars (v.getD "").toList))

/-- Like `fillTrimLower` but uppercasing, as applied to the gender field. -/
def fillTrimUpper (v : Option String) : String :=
  upperStr (String.mk (trimChars (v.getD "").toList))

/-- The concatenated identity key `name|country|gender` of `hash_athletes`,
`none` when the normalized name is empty (`has_name` is false). -/
def hashKey (name country gender : Option String) : Option String :=
  let n := fillTrimLower name
  let c := fillTrimLower country
  let g := fillTrimUpper gender
  if 0 < n.length then some (n ++ "|" ++ c ++ "|" ++ g) else none

/-- `hash_athletes` on one row: rows with a non-empty normalized name get the
truncated SHA-256 digest of their identity key; others get a null identity. -/
def hash_athletes (name country gender : Option String) : Option String :=
  (hashKey name country gender).map sha256hex16

/-! ## The canonical schema

One row of the unified fact table, covering every column of `SCHEMA`.
`ensure_schema` in the source adds missing columns as `NaN` and reorders;
here every processor constructs a full record (unset columns are `none`),
so `ensure_schema` is the identity. -/

/-- One canonical `RaceRecord` row (the `SCHEMA` columns). -/
structure RaceRow where
  athlete_hash : Option String := none
  athlete_name : Option String := none
  gender : Option String := none
  age_group : Option String := none
  age_band : Option ℚ := none
  country : Option String := none
  country_iso2 : Option String := none
  is_pro : Option Bool := none
  event_name : Option String := none
  event_year : Option ℚ := none
  event_location : Option String := none
  event_distance : Option String := none
  source : Option String := none
  swim_sec : Option ℚ := none
  t1_sec : Option ℚ := none
  bike_sec : Option ℚ := none
  t2_sec : Option ℚ := none
  run_sec : Option ℚ := none
  total_sec : Option ℚ := none
  overall_rank : Option ℚ := none
  gender_rank : Option ℚ := none
  age_group_rank : Option ℚ := none
  division_rank : Option ℚ := none
  finish_status : Option String := none
deriving Repr, DecidableEq

/-- `ensure_schema`: every embedded row already carries the full column
set, so reindexing to `SCHEMA` changes nothing. -/
def ensure_schema (df : List RaceRow) : List RaceRow := df

/-! ## Quality bounds and `quality_filter` (Plan 07 Appendix A) -/

/-- Bound table `B`: swim `[300, 9000]`, bike `[1800, 36000]`,
run `[600, 25200]`, total `[3300, 68400]`, transitions `[0, 1200]`,
segment share of total `[0.05, 0.65]`. -/
def B_swim : ℚ × ℚ := (300, 9000)

/-- Bike-leg bound of the bound table `B`. -/
def B_bike : ℚ × ℚ := (1800, 36000)

/-- Run-leg bound of the bound table `B`. -/
def B_run : ℚ × ℚ := (600, 25200)

/-- Total-duration bound of the bound table `B`. -/
def B_total : ℚ × ℚ := (3300, 68400)

/-- Transition bound of the bound table `B`. -/
def B_t : ℚ × ℚ := (0, 1200)

/-- Segment-percentage bound of the bound table `B`. -/
def B_pct : ℚ × ℚ := (5 / 100, 65 / 100)

/-- `Series.between(lo, hi)` on one cell: `NaN` compares false. -/
def betweenOpt (v : Option ℚ) (b : ℚ × ℚ) : Bool :=
  match v with
  | some x => b.1 ≤ x ∧ x ≤ b.2
  | none => false

/-- The mask term `~(col.notna() & ~col.between(lo, hi))` on one cell: a
present value must be inside the bound, a missing one passes. -/
def presentWithin (v : Option ℚ) (b : ℚ × ℚ) : Bool :=
  match v with
  | some x => b.1 ≤ x ∧ x ≤ b.2
  | none => true

/-- The mask term `~(pct.notna() & ~pct.between(0.05, 0.65))` for
`pct = col / total` on one cell.  In the source the float quotient `0 / 0`
is `NaN`, which passes the clause; any other quotient by zero is infinite
and fails, which the rational quotient `x / 0 = 0` also does. -/
def pctWithin (v tot : Option ℚ) : Bool :=
  match v, tot with
  | some x, some t =>
    if x = 0 ∧ t = 0 then true
    else B_pct.1 ≤ x / t ∧ x / t ≤ B_pct.2
  | _, _ => true

/-- The conjoined `quality_filter` mask for one row. -/
def qualityKeep (r : RaceRow) : Bool :=
  betweenOpt r.total_sec B_total &&
  presentWithin r.swim_sec B_swim &&
  presentWithin r.bike_sec B_bike &&
  presentWithin r.run_sec B_run &&
  presentWithin r.t1_sec B_t &&
  presentWithin r.t2_sec B_t &&
  pctWithin r.swim_sec r.total_sec &&
  pctWithin r.bike_sec r.total_sec &&
  pctWithin r.run_sec r.total_sec

/-- `quality_filter`: retain the rows whose mask holds (the logging of
removed-row counts has no data effect). -/
def quality_filter (df : List RaceRow) : List RaceRow :=
  df.filter qualityKeep

/-! ## Source processors

Each processor takes `some raw` when its raw file(s) were read, or `none`
when they are absent on disk.  `process_t100` and `process_wiki` guard the
absent case (`if not files: return pd.DataFrame(columns=SCHEMA)`); the other
three call `pd.read_csv` on a fixed path unconditionally, which raises
`FileNotFoundError` on an absent file — embedded as `Except.error`. -/

/-- A pipeline-aborting error: the unguarded `pd.read_csv` of an absent
raw file. -/
inductive ETLErr where
  | missingFile
deriving Repr, DecidableEq

/-- One raw T100 CSV row; every cell is free text that may be missing. -/
structure T100Raw where
  athlete_name : Option String := none
  gender : Option String := none
  age_group : Option String := none
  country : Option String := none
  event_name : Option String := none
  event_year : Option String := none
  event_distance : Option String := none
  swim_sec : Option String := none
  t1_sec : Option String := none
  bike_sec : Option String := none
  t2_sec : Option String := none
  run_sec : Option String := none
  total_sec : Option String := none
  overall_rank : Option String := none
  gender_rank : Option String := none
  age_group_rank : Option String := none
deriving Repr, DecidableEq

/-- Canonical mapping of one T100 row. -/
def t100Row (t : T100Raw) : RaceRow :=
  { athlete_name := t.athlete_name
    gender := t.gender
    age_group := t.age_group
    country := t.country
    is_pro := some true
    event_name := t.event_name
    event_year := toNumericOpt t.event_year
    event_location := t.event_name.map (fun s => s.replace " T100" "")
    event_distance := t.event_distance
    source := some "t100"
    swim_sec := toNumericOpt t.swim_sec
    t1_sec := toNumericOpt t.t1_sec
    bike_sec := toNumericOpt t.bike_sec
    t2_sec := toNumericOpt t.t2_sec
    run_sec := toNumericOpt t.run_sec
    total_sec := toNumericOpt t.total_sec
    overall_rank := toNumericOpt t.overall_rank
    gender_rank := toNumericOpt t.gender_rank
    age_group_rank := toNumericOpt t.age_group_rank
    finish_status := some "finisher"
    athlete_hash := hash_athletes t.athlete_name t.country t.gender }

/-- `process_t100`: absent files yield the empty, correctly-shaped table;
otherwise map, drop rows with no usable total, and quality-filter. -/
def process_t100 (input : Option (List T100Raw)) : Except ETLErr (List RaceRow) :=
  match input with
  | none => .ok []
  | some t =>
    .ok (ensure_schema (quality_filter
      (((t.map t100Row).filter (fun r => r.total_sec.isSome)))))

/-- One raw Wikipedia JSON record.  Fields carried as JSON numbers are
`Option ℚ` (on them `pd.to_numeric` is the identity). -/
structure WikiRaw where
  athlete_name : Option String := none
  gender : Option String := none
  age_group : Option String := none
  country : Option String := none
  event_name : Option String := none
  event_distance : Option String := none
  event_year : Option ℚ := none
  swim_sec : Option ℚ := none
  t1_sec : Option ℚ := none
  bike_sec : Option ℚ := none
  t2_sec : Option ℚ := none
  run_sec : Option ℚ := none
  total_sec : Option ℚ := none
  overall_rank : Option ℚ := none
  gender_rank : Option ℚ := none
  age_group_rank : Option ℚ := none
deriving Repr, DecidableEq

/-- Canonical mapping of one Wikipedia record. -/
def wikiRow (w : WikiRaw) : RaceRow :=
  let g := norm_gender w.gender
  { athlete_name := w.athlete_name
    gender := g
    age_group := w.age_group
    country := w.country
    is_pro := some true
    event_name := w.event_name
    event_year := w.event_year
    event_location := w.event_name
    event_distance := w.event_distance
    source := some "wiki"
    swim_sec := w.swim_sec
    t1_sec := w.t1_sec
    bike_sec := w.bike_sec
    t2_sec := w.t2_sec
    run_sec := w.run_sec
    total_sec := w.total_sec
    overall_rank := w.overall_rank
    gender_rank := w.gender_rank
    age_group_rank := w.age_group_rank
    finish_status := some "finisher"
    athlete_hash := hash_athletes w.athlete_name w.country g }

/-- `process_wiki`: absent or empty files yield no records, hence the
empty, correctly-shaped table; otherwise keep records whose stringified
name is non-empty (a missing name stringifies to `"nan"`, which counts as
non-empty) and whose raw total is present, map, and quality-filter. -/
def process_wiki (input : Option (List WikiRaw)) : Except ETLErr (List RaceRow) :=
  match input with
  | none => .ok []
  | some recs =>
    let kept := recs.filter (fun w =>
      0 < (trimChars (pdStr w.athlete_name).toList).length && w.total_sec.isSome)
    .ok (ensure_schema (quality_filter (kept.map wikiRow)))

/-- One raw Half-Ironman `df6` CSV row.  `AgeBand` and `EventYear` are
numeric columns used without re-parsing (`astype(float)` / direct copy). -/
structure Df6Raw where
  Gender : Option String := none
  AgeGroup : Option String := none
  AgeBand : Option ℚ := none
  Country : Option String := none
  CountryISO2 : Option String := none
  EventLocation : Option String := none
  EventYear : Option ℚ := none
  SwimTime : Option String := none
  Transition1Time : Option String := none
  BikeTime : Option String := none
  Transition2Time : Option String := none
  RunTime : Option String := none
  FinishTime : Option String := none
deriving Repr, DecidableEq

/-- Canonical mapping of one `df6` row: anonymous amateur records. -/
def df6Row (raw : Df6Raw) : RaceRow :=
  { athlete_hash := none
    athlete_name := none
    gender := raw.Gender
    age_group := raw.AgeGroup
    age_band := raw.AgeBand
    country := raw.Country
    country_iso2 := raw.CountryISO2
    is_pro := some false
    event_name := some ("Ironman 70.3 " ++ pdStr raw.EventLocation)
    event_year := raw.EventYear
    event_location := raw.EventLocation
    event_distance := some "70.3"
    source := some "kaggle_df6"
    swim_sec := toNumericOpt raw.SwimTime
    t1_sec := toNumericOpt raw.Transition1Time
    bike_sec := toNumericOpt raw.BikeTime
    t2_sec := toNumericOpt raw.Transition2Time
    run_sec := toNumericOpt raw.RunTime
    total_sec := toNumericOpt raw.FinishTime
    finish_status := some "finisher" }

/-- `process_df6`: reads `Half_Ironman_df6.csv` unconditionally, so an
absent file aborts; otherwise map, drop rows with no usable total, and
quality-filter. -/
def process_df6 (input : Option (List Df6Raw)) : Except ETLErr (List RaceRow) :=
  match input with
  | none => .error .missingFile
  | some raw =>
    .ok (ensure_schema (quality_filter
      ((raw.map df6Row).filter (fun r => r.total_sec.isSome))))

/-- One raw CoachCox `results.csv` row. -/
structure CCRaw where
  Name : Option String := none
  Gender : Option String := none
  Country : Option String := none
  Division : Option String := none
  finishStatus : Option String := none
  swimTime : Option String := none
  bikeTime : Option String := none
  runTime : Option String := none
  overallTime : Option String := none
  overallRank : Option String := none
  divisionRank : Option String := none
  raceID : Option ℚ := none
deriving Repr, DecidableEq

/-- One raw CoachCox `races.csv` row (`id` is its primary key). -/
structure CCRace where
  id : ℚ
  seriesID : Option ℚ := none
  year : Option ℚ := none
deriving Repr, DecidableEq

/-- One raw CoachCox `series.csv` row (`id` is its primary key). -/
structure CCSeries where
  id : ℚ
  location : Option String := none
deriving Repr, DecidableEq

/-- The relational join `races ⋈ series` followed by the left join onto a
result row's `raceID`: the event year and location, or `NaN` when either
key is unmatched.  Keys are primary keys, so the first match is the match. -/
def ccYearLoc (races : List CCRace) (series : List CCSeries) (rid : Option ℚ) :
    Option ℚ × Option String :=
  match rid.bind (fun i => races.find? (fun rc => rc.id == i)) with
  | none => (none, none)
  | some rc =>
    match rc.seriesID.bind (fun sid => series.find? (fun s => s.id == sid)) with
    | none => (none, none)
    | some s => (rc.year, s.location)

/-- Canonical mapping of one CoachCox result row. -/
def ccRow (races : List CCRace) (series : List CCSeries) (r : CCRaw) : RaceRow :=
  let yl := ccYearLoc races series r.raceID
  let g := norm_gender r.Gender
  let ag := extract_ag r.Division
  { athlete_name := r.Name
    gender := g
    age_group := ag
    age_band := extract_band ag
    country := r.Country
    is_pro := some (match r.Division with
      | some d => upperStr d = "MPRO" ∨ upperStr d = "FPRO"
      | none => false)
    event_name := yl.2
    event_year := yl.1
    event_location := yl.2
    event_distance := some "140.6"
    source := some "coachcox"
    swim_sec := hmsOpt r.swimTime
    bike_sec := hmsOpt r.bikeTime
    run_sec := hmsOpt r.runTime
    total_sec := hmsOpt r.overallTime
    overall_rank := toNumericOpt r.overallRank
    division_rank := toNumericOpt r.divisionRank
    finish_status := r.finishStatus.map (fun s => String.mk (trimChars (lowerStr s).toList))
    athlete_hash := hash_athletes r.Name r.Country g }

/-- The canonical CoachCox rows after the join, the clock-string parsing,
and the drop of rows with no usable total (`dropna(subset=['total_sec'])`
runs before the finisher split). -/
def ccParsedRows (races : List CCRace) (series : List CCSeries)
    (raw : List CCRaw) : List RaceRow :=
  (raw.filter (fun r => (hmsOpt r.overallTime).isSome)).map (ccRow races series)

/-- `process_coachcox`: reads its three CSVs unconditionally, so an absent
file aborts.  Otherwise: join, parse clock strings, drop rows with no
usable total, then quality-filter the finisher rows only and keep every
remaining non-finisher row as is. -/
def process_coachcox
    (input : Option (List CCRaw × List CCRace × List CCSeries)) :
    Except ETLErr (List RaceRow) :=
  match input with
  | none => .error .missingFile
  | some (raw, races, series) =>
    let rows := ccParsedRows races series raw
    let fin := quality_filter (rows.filter (fun r => r.finish_status == some "finisher"))
    let nonfin := rows.filter (fun r => r.finish_status != some "finisher")
    .ok (ensure_schema (fin ++ nonfin))

/-! ### TriStat link parsing -/

/-- Substring test over character lists (`in` on Python strings,
`Series.str.contains` with a literal pattern). -/
def hasInfix (pat : List Char) : List Char → Bool
  | [] => pat.isEmpty
  | c :: cs => pat.isPrefixOf (c :: cs) || hasInfix pat cs

/-- Match `/(\d{4})(?:/|$)` at the head of a character list: a slash, four
digits, then a slash or the end of the text; the digits are the capture. -/
def matchYearAt : List Char → Option (List Char)
  | '/' :: rest =>
    match takeDigits 4 rest with
    | some (ds, r) =>
      match r with
      | [] => some ds
      | '/' :: _ => some ds
      | _ => none
    | none => none
  | _ => none

/-- Lowercase ASCII letter test, the regex class `[a-z]`. -/
def lowerAlpha (c : Char) : Bool := 'a' ≤ c && c ≤ 'z'

/-- The regex class `[a-z0-9-]`. -/
def locChar (c : Char) : Bool := lowerAlpha c || c.isDigit || c = '-'

/-- Match the capture `([a-z][a-z0-9-]+)` at the head of a character list. -/
def matchLocName : List Char → Option (List Char)
  | [] => none
  | c :: rest =>
    if lowerAlpha c then
      let run := rest.takeWhile locChar
      if run.isEmpty then none else some (c :: run)
    else none

/-- The event-kind keywords of the TriStat location patterns. -/
def ironKeywords : List (List Char) :=
  ["70.3", "full", "half", "sprint", "olympic"].map String.toList

/-- Match `/ironman/(?!70\.3|full|half|sprint|olympic)([a-z][a-z0-9-]+)` at
the head of a character list. -/
def matchLoc1At (l : List Char) : Option (List Char) :=
  if "/ironman/".toList.isPrefixOf l then
    let rest := l.drop 9
    if ironKeywords.any (fun kw => kw.isPrefixOf rest) then none
    else matchLocName rest
  else none

/-- Match `/ironman/(?:70\.3|full|half|sprint|olympic)/([a-z][a-z0-9-]+)`
at the head of a character list. -/
def matchLoc2At (l : List Char) : Option (List Char) :=
  if "/ironman/".toList.isPrefixOf l then
    let rest := l.drop 9
    match ironKeywords.findSome? (fun kw =>
        if (kw ++ ['/']).isPrefixOf rest then some (rest.drop (kw.length + 1))
        else none) with
    | some after => matchLocName after
    | none => none
  else none

/-- Python `str.title()`: the first letter of every alpha run is
uppercased, the rest lowercased. -/
def titleCase (s : String) : String :=
  String.mk
    ((s.toList.foldl
        (fun (acc : List Char × Bool) c =>
          let out := if c.isAlpha then (if acc.2 then c.toLower else c.toUpper) else c
          (out :: acc.1, c.isAlpha))
        ([], false)).1.reverse)

/-- One raw TriStat `postgres_public_tristat_stat.csv` row. -/
structure TSRaw where
  person_name : Option String := none
  gender : Option String := none
  person_event_group : Option String := none
  person_flag : Option String := none
  event_link : Option String := none
  person_event_swim_time_text : Option String := none
  person_event_t1_time_text : Option String := none
  person_event_cycle_time_text : Option String := none
  person_event_t2_time_text : Option String := none
  person_event_run_time_text : Option String := none
  person_event_finish_time_text : Option String := none
deriving Repr, DecidableEq

/-- Canonical mapping of one TriStat row, including the `event_link`
parsing (distance class, year, and location). -/
def tsRow (r : TSRaw) : RaceRow :=
  let lk := (lowerStr (r.event_link.getD "")).toList
  let has (pat : String) : Bool := hasInfix pat.toList lk
  let dist : String :=
    if has "/olympic/" then "olympic"
    else if has "/sprint/" then "sprint"
    else if has "/half/" || has "/70.3/" then "70.3"
    else "140.6"
  let year := (scanFirst matchYearAt lk).bind toNumericChars
  let locRaw :=
    match scanFirst matchLoc1At lk with
    | some l => some l
    | none => scanFirst matchLoc2At lk
  let loc : Option String := locRaw.map (fun l =>
    titleCase (String.mk (l.map (fun c => if c = '-' then ' ' else c))))
  let g0 := norm_gender r.gender
  let backup := r.person_event_group.bind (fun s =>
    match s.toList with
    | 'M' :: _ => some "M"
    | 'F' :: _ => some "F"
    | _ => none)
  let g := match g0 with | some x => some x | none => backup
  let pro := match r.person_event_group with
    | some s => hasInfix "PRO".toList (upperStr s).toList
    | none => false
  let ag := extract_ag r.person_event_group
  { athlete_name := r.person_name
    gender := g
    age_group := ag
    age_band := extract_band ag
    country := r.person_flag
    country_iso2 := r.person_flag
    is_pro := some pro
    event_name := some ("Ironman " ++ dist ++ " " ++ loc.getD "")
    event_year := year
    event_location := loc
    event_distance := some dist
    source := some "tristat"
    swim_sec := hmsOpt r.person_event_swim_time_text
    t1_sec := hmsOpt r.person_event_t1_time_text
    bike_sec := hmsOpt r.person_event_cycle_time_text
    t2_sec := hmsOpt r.person_event_t2_time_text
    run_sec := hmsOpt r.person_event_run_time_text
    total_sec := hmsOpt r.person_event_finish_time_text
    finish_status := some "finisher"
    athlete_hash := hash_athletes r.person_name r.person_flag g }

/-- `process_tristat`: reads its CSV unconditionally, so an absent file
aborts; otherwise parse clock strings, drop rows with no usable total, map,
and quality-filter. -/
def process_tristat (input : Option (List TSRaw)) : Except ETLErr (List RaceRow) :=
  match input with
  | none => .error .missingFile
  | some raw =>
    .ok (ensure_schema (quality_filter
      ((raw.filter (fun r => (hmsOpt r.person_event_finish_time_text).isSome)).map tsRow)))

/-! ## Combiner and derived features -/

/-- First-occurrence deduplication, structurally recursive on a fuel
bounded by the list length (each step consumes at least one element). -/
def dropDupFuel {α κ : Type} [DecidableEq κ] (key : α → κ) : ℕ → List α → List α
  | _, [] => []
  | 0, _ :: _ => []
  | fuel + 1, x :: xs => x :: dropDupFuel key fuel (xs.filter (fun y => key y != key x))

/-- `drop_duplicates(subset, keep='first')`: keep the first row of every
key class.  pandas treats equal `NaN` keys as duplicates of one another,
which `Option` equality mirrors. -/
def dropDuplicatesBy {α κ : Type} [DecidableEq κ] (key : α → κ) (l : List α) : List α :=
  dropDupFuel key l.length l

/-- The deduplication key `['source', 'athlete_name', 'event_year',
'total_sec', 'gender']`. -/
def dedupKey (r : RaceRow) :
    Option String × Option String × Option ℚ × Option ℚ × Option String :=
  (r.source, r.athlete_name, r.event_year, r.total_sec, r.gender)

/-- Insert into a sorted list of rationals. -/
def insertSorted (x : ℚ) : List ℚ → List ℚ
  | [] => [x]
  | y :: ys => if x ≤ y then x :: y :: ys else y :: insertSorted x ys

/-- Sort a list of rationals ascending. -/
def sortQ (l : List ℚ) : List ℚ := l.foldr insertSorted []

/-- `Series.median()` over the present values: middle of the sorted list,
or the mean of the two middles; `NaN` on an empty list. -/
def medianQ (l : List ℚ) : Option ℚ :=
  let s := sortQ l
  let n := s.length
  if n = 0 then none
  else if n % 2 = 1 then s.get? (n / 2)
  else
    match s.get? (n / 2 - 1), s.get? (n / 2) with
    | some a, some b => some ((a + b) / 2)
    | _, _ => none

/-- `Series.mean()` over the present values; `NaN` on an empty list. -/
def meanQ (l : List ℚ) : Option ℚ :=
  if l.isEmpty then none else some (l.sum / l.length)

/-- `Series.std()` (sample standard deviation, `ddof=1`) over the present
values; `NaN` with fewer than two.  The source computes a floating-point
square root; the embedding uses `Rat.sqrt` (exact on perfect squares) — no
claim below depends on the value of an inexact root. -/
def stdQ (l : List ℚ) : Option ℚ :=
  if 2 ≤ l.length then
    match meanQ l with
    | some m => some (Rat.sqrt ((l.map (fun x => (x - m) ^ 2)).sum / ((l.length : ℚ) - 1)))
    | none => none
  else none

/-- The cohort grouping key (`gender`, `age_group`, `event_distance`);
`none` when any component is missing — `groupby` drops those rows. -/
def cohortKey (r : RaceRow) : Option (String × String × String) := do
  let g ← r.gender
  let a ← r.age_group
  let d ← r.event_distance
  pure (g, a, d)

/-- One row of the cohort-statistics table. -/
structure CohortRow where
  gender : String
  age_group : String
  event_distance : String
  c_med_total : Option ℚ := none
  c_std_total : Option ℚ := none
  c_med_swim : Option ℚ := none
  c_med_bike : Option ℚ := none
  c_med_run : Option ℚ := none
  c_count : ℕ := 0
deriving Repr, DecidableEq

/-- The grouping key of a cohort-statistics row. -/
def CohortRow.key (c : CohortRow) : String × String × String :=
  (c.gender, c.age_group, c.event_distance)

/-- The amateur rows of a table: `df[df['is_pro'] != True]`, which also
keeps rows whose flag is missing. -/
def amateurRows (df : List RaceRow) : List RaceRow :=
  df.filter (fun r => r.is_pro != some true)

/-- The non-null totals of the amateur rows of one cohort group. -/
def cohortTotals (df : List RaceRow) (k : String × String × String) : List ℚ :=
  ((amateurRows df).filter (fun r => cohortKey r == some k)).filterMap (fun r => r.total_sec)

/-- Aggregate one cohort group of the amateur rows. -/
def mkCohortRow (df : List RaceRow) (k : String × String × String) : CohortRow :=
  let grp := (amateurRows df).filter (fun r => cohortKey r == some k)
  { gender := k.1
    age_group := k.2.1
    event_distance := k.2.2
    c_med_total := medianQ (cohortTotals df k)
    c_std_total := stdQ (cohortTotals df k)
    c_med_swim := medianQ (grp.filterMap (fun r => r.swim_sec))
    c_med_bike := medianQ (grp.filterMap (fun r => r.bike_sec))
    c_med_run := medianQ (grp.filterMap (fun r => r.run_sec))
    c_count := (cohortTotals df k).length }

/-- Cohort statistics of the combined table: group the amateur rows by
(gender, age-group, distance), aggregate, and keep only the groups whose
sample count (non-null totals) reaches 30. -/
def cohortStats (df : List RaceRow) : List CohortRow :=
  let keys := dropDuplicatesBy id ((amateurRows df).filterMap cohortKey)
  (keys.map (mkCohortRow df)).filter (fun c => 30 ≤ c.c_count)

/-- The left join of the cohort table onto one row's cohort key. -/
def findCohort (cohort : List CohortRow) (r : RaceRow) : Option CohortRow :=
  (cohortKey r).bind (fun k => cohort.find? (fun c => c.key == k))

/-- `Series.rank(pct=True)` of one value within its group's non-null
totals: tied values share the mean of their ordinal ranks, and the result
is divided by the count of ranked values. -/
def rankPct (vals : List ℚ) (t : ℚ) : ℚ :=
  let lt := (vals.filter (fun v => v < t)).length
  let eq := (vals.filter (fun v => v == t)).length
  ((lt : ℚ) + ((eq : ℚ) + 1) / 2) / vals.length

/-- The non-null totals of one full-table cohort group (professionals
included), used by the percentile pass. -/
def groupTotals (df : List RaceRow) (k : String × String × String) : List ℚ :=
  (df.filter (fun r => cohortKey r == some k)).filterMap (fun r => r.total_sec)

/-- The within-cohort percentile of one row: ranked per (gender,
age-group, distance) group over the whole table, only when the group has
at least 30 non-null totals, and only for rows with a total. -/
def cohortPctl (df : List RaceRow) (r : RaceRow) : Option ℚ :=
  match cohortKey r, r.total_sec with
  | some k, some t =>
    let vals := groupTotals df k
    if 30 ≤ vals.length then some (rankPct vals t) else none
  | _, _ => none

/-- One row of the fact table: the canonical columns plus the derived
columns (`DERIVED`). -/
structure FactRow extends RaceRow where
  swim_pct : Option ℚ := none
  bike_pct : Option ℚ := none
  run_pct : Option ℚ := none
  transition_pct : Option ℚ := none
  bike_run_ratio : Option ℚ := none
  fade_ratio : Option ℚ := none
  implied_bike_if : Option ℚ := none
  cohort_percentile : Option ℚ := none
deriving Repr, DecidableEq

/-- `np.where((tot > 0) & col.notna(), col / tot, nan)` on one row. -/
def pctOfTotal (col tot : Option ℚ) : Option ℚ :=
  match col, tot with
  | some x, some t => if 0 < t then some (x / t) else none
  | _, _ => none

/-- Derive one fact row: row-level ratios, the fade and implied-intensity
ratios against the merged cohort baseline, and the within-cohort
percentile. -/
def mkFact (df : List RaceRow) (cohort : List CohortRow) (r : RaceRow) : FactRow :=
  let c := findCohort cohort r
  { r with
    swim_pct := pctOfTotal r.swim_sec r.total_sec
    bike_pct := pctOfTotal r.bike_sec r.total_sec
    run_pct := pctOfTotal r.run_sec r.total_sec
    transition_pct :=
      match r.t1_sec, r.t2_sec, r.total_sec with
      | some a, some b, some t => if 0 < t then some ((a + b) / t) else none
      | _, _, _ => none
    bike_run_ratio :=
      match r.bike_sec, r.run_sec with
      | some bk, some rn => if 0 < rn then some (bk / rn) else none
      | _, _ => none
    fade_ratio :=
      match c.bind (fun cr => cr.c_med_run), r.run_sec with
      | some med, some rn => if 0 < med then some (rn / med) else none
      | _, _ => none
    implied_bike_if :=
      match c.bind (fun cr => cr.c_med_bike), r.bike_sec with
      | some med, some bk => if 0 < med then some (bk / med) else none
      | _, _ => none
    cohort_percentile := cohortPctl df r }

/-- `combine_and_derive`: concatenate the processor outputs, deduplicate,
derive the row-level and cohort-relative features, and return the fact
table together with the cohort-statistics table. -/
def combine_and_derive (sources : List (List RaceRow)) :
    List FactRow × List CohortRow :=
  let df := dropDuplicatesBy dedupKey sources.flatten
  let cohort := cohortStats df
  (df.map (mkFact df cohort), cohort)

/-! ## Profile builder

`build_profiles` groups the named fact rows by athlete hash.  The stages a
claim touches are embedded per athlete group: the vectorized
ordinary-least-squares trend slope, the modal-cohort strength z-scores with
their dominant-discipline arg-max, and the CoachCox-only DNF statistics. -/

/-- The (year, total) pairs of an athlete's rows after
`dropna(subset=['event_year', 'total_sec'])`. -/
def datedPairs (rows : List RaceRow) : List (ℚ × ℚ) :=
  rows.filterMap (fun r =>
    match r.event_year, r.total_sec with
    | some x, some y => some (x, y)
    | _, _ => none)

/-- The ordinary-least-squares denominator `n·Σx² − (Σx)²`. -/
def slopeDenom (v : List (ℚ × ℚ)) : ℚ :=
  (v.length : ℚ) * (v.map (fun p => p.1 ^ 2)).sum - (v.map Prod.fst).sum ^ 2

/-- `improvement_slope` of one athlete's rows: the closed-form OLS slope
`(n·Σxy − Σx·Σy) / (n·Σx² − (Σx)²)` over the dated races, `NaN` unless the
athlete has at least 2 dated races and `|denominator| > 1e-6`. -/
def improvement_slope (rows : List RaceRow) : Option ℚ :=
  let v := datedPairs rows
  let n : ℚ := v.length
  let sx := (v.map Prod.fst).sum
  let sy := (v.map Prod.snd).sum
  let sxy := (v.map (fun p => p.1 * p.2)).sum
  if 2 ≤ v.length ∧ 1 / 1000000 < |slopeDenom v| then
    some ((n * sxy - sx * sy) / slopeDenom v)
  else none

/-- groupby `'first'`: the first non-null value of a column. -/
def firstSome {α : Type} (l : List (Option α)) : Option α :=
  l.findSome? id

/-- `Series.mode().iloc[0]` over the non-null values: the most frequent
value, the smallest one on ties (`mode` returns the modes sorted); `NaN`
when there are no values. -/
def modeStr (l : List String) : Option String :=
  let uniq := dropDuplicatesBy id l
  let counts := uniq.map (fun v => (v, (l.filter (fun w => w == v)).length))
  let maxC := (counts.map Prod.snd).foldl max 0
  match (counts.filter (fun p => p.2 == maxC)).map Prod.fst with
  | [] => none
  | b :: bs => some (bs.foldl (fun acc v => if v < acc then v else acc) b)

/-- One athlete's modal-cohort aggregation (`modal` in the source): first
gender, modal age group and distance, and mean segment durations. -/
structure ModalRow where
  gender : Option String := none
  age_group : Option String := none
  event_distance : Option String := none
  avg_swim : Option ℚ := none
  avg_bike : Option ℚ := none
  avg_run : Option ℚ := none
deriving Repr, DecidableEq

/-- Aggregate one athlete's rows into their modal row. -/
def modalOf (rows : List RaceRow) : ModalRow :=
  { gender := firstSome (rows.map (fun r => r.gender))
    age_group := modeStr (rows.filterMap (fun r => r.age_group))
    event_distance := modeStr (rows.filterMap (fun r => r.event_distance))
    avg_swim := meanQ (rows.filterMap (fun r => r.swim_sec))
    avg_bike := meanQ (rows.filterMap (fun r => r.bike_sec))
    avg_run := meanQ (rows.filterMap (fun r => r.run_sec)) }

/-- The three strength z-scores of one athlete: left-join the cohort table
on the modal key, floor the cohort standard deviation at 300 seconds
(`clip(lower=300)`, `NaN` stays `NaN`), and score each discipline as
`-(athlete mean − cohort median) / floored std`, `NaN` propagating. -/
def zscores (cohort : List CohortRow) (m : ModalRow) :
    Option ℚ × Option ℚ × Option ℚ :=
  let c : Option CohortRow := do
    let g ← m.gender
    let a ← m.age_group
    let d ← m.event_distance
    cohort.find? (fun cr => cr.key == (g, a, d))
  let sf := (c.bind (fun cr => cr.c_std_total)).map (fun s => max s 300)
  let z (avg med : Option ℚ) : Option ℚ :=
    match avg, med, sf with
    | some a, some md, some f => some (-(a - md) / f)
    | _, _, _ => none
  (z m.avg_swim (c.bind (fun cr => cr.c_med_swim)),
   z m.avg_bike (c.bind (fun cr => cr.c_med_bike)),
   z m.avg_run (c.bind (fun cr => cr.c_med_run)))

/-- `np.nanargmax` over one row of the three z-scores: the index of the
largest present value (first on ties); a row with no present value raises
`ValueError: All-NaN slice encountered`, embedded as an error. -/
def nanargmax3 (z : Option ℚ × Option ℚ × Option ℚ) : Except String (Fin 3) :=
  let cands : List (Fin 3 × ℚ) :=
    ([(0, z.1), (1, z.2.1), (2, z.2.2)] : List (Fin 3 × Option ℚ)).filterMap
      (fun p => p.2.map (fun v => (p.1, v)))
  match cands with
  | [] => .error "All-NaN slice encountered"
  | c :: cs => .ok (cs.foldl (fun acc p => if acc.2 < p.2 then p else acc) c).1

/-- `disc[i]` for the arg-max index. -/
def disciplineName (i : Fin 3) : String :=
  ["swim", "bike", "run"].getD i.val ""

/-- The dominant-discipline pass over all athletes: `np.nanargmax` over
every z-score row first (so one all-`NaN` athlete aborts the whole pass),
then the comprehension naming the winning discipline, whose all-`NaN`
guard would yield `NaN`. -/
def dominantDiscipline (cohort : List CohortRow)
    (athleteGroups : List (List RaceRow)) : Except String (List (Option String)) := do
  let zs := athleteGroups.map (fun rows => zscores cohort (modalOf rows))
  let best ← zs.mapM nanargmax3
  return (zs.zip best).map (fun p =>
    if p.1.1 = none ∧ p.1.2.1 = none ∧ p.1.2.2 = none then none
    else some (disciplineName p.2))

/-- The CoachCox-sourced rows of one athlete among the named rows. -/
def ccRacesOf (named : List RaceRow) (h : String) : List RaceRow :=
  named.filter (fun r => r.source == some "coachcox" && r.athlete_hash == some h)

/-- `(x != 'finisher').sum()` over a group: non-finisher count, a missing
status counting as a non-finisher (`NaN != 'finisher'` is true). -/
def dnfCountOf (cc : List RaceRow) : ℕ :=
  (cc.filter (fun r => r.finish_status != some "finisher")).length

/-- `('finish_status', 'count')`: the number of non-null statuses. -/
def ccStatusCount (cc : List RaceRow) : ℕ :=
  (cc.filter (fun r => r.finish_status.isSome)).length

/-- The DNF statistics `(dnf_count, dnf_rate)` of one athlete: computed
over their CoachCox rows only; `(0, 0)` via `fillna(0)` when they have
none.  In the source the rate is a float quotient (infinite when every
status of a non-empty group is null); the rational quotient is total, and
no theorem below evaluates that corner. -/
def dnfStats (named : List RaceRow) (h : String) : ℕ × ℚ :=
  let cc := ccRacesOf named h
  if cc.isEmpty then (0, 0)
  else (dnfCountOf cc, (dnfCountOf cc : ℚ) / (ccStatusCount cc : ℚ))

/-! ## Specification-side definitions

Definitions that follow the specification's words, to be compared with the
embedded source functions. -/

/-- The identity key exactly as the specification words it: the
lower-cased, whitespace-trimmed concatenation of all three of name,
country and gender (the source instead upper-cases the gender). -/
def hashKeyLowerSpec (name country gender : Option String) : Option String :=
  let n := fillTrimLower name
  let c := fillTrimLower country
  let g := fillTrimLower gender
  if 0 < n.length then some (n ++ "|" ++ c ++ "|" ++ g) else none

/-- The quality-filter retention condition as the claim words it: total
duration within the global bound, every present segment duration within
its own bound, and every present race-segment share of total within
5–65 percent. -/
def QualityClaimKeep (r : RaceRow) : Prop :=
  (∃ t, r.total_sec = some t ∧ B_total.1 ≤ t ∧ t ≤ B_total.2) ∧
  (∀ x, r.swim_sec = some x → B_swim.1 ≤ x ∧ x ≤ B_swim.2) ∧
  (∀ x, r.bike_sec = some x → B_bike.1 ≤ x ∧ x ≤ B_bike.2) ∧
  (∀ x, r.run_sec = some x → B_run.1 ≤ x ∧ x ≤ B_run.2) ∧
  (∀ x, r.t1_sec = some x → B_t.1 ≤ x ∧ x ≤ B_t.2) ∧
  (∀ x, r.t2_sec = some x → B_t.1 ≤ x ∧ x ≤ B_t.2) ∧
  (∀ x t, r.swim_sec = some x → r.total_sec = some t →
    B_pct.1 ≤ x / t ∧ x / t ≤ B_pct.2) ∧
  (∀ x t, r.bike_sec = some x → r.total_sec = some t →
    B_pct.1 ≤ x / t ∧ x / t ≤ B_pct.2) ∧
  (∀ x t, r.run_sec = some x → r.total_sec = some t →
    B_pct.1 ≤ x / t ∧ x / t ≤ B_pct.2)

/-- A direct ordinary-least-squares fit, as the specification words the
reference computation: slope of the line minimizing squared error, in the
centered form covariance over variance, defined for at least two points
with non-degenerate x-variance. -/
def directLSFitSlope (v : List (ℚ × ℚ)) : Option ℚ :=
  if 2 ≤ v.length then
    let n : ℚ := v.length
    let xbar := (v.map Prod.fst).sum / n
    let ybar := (v.map Prod.snd).sum / n
    let sxx := (v.map (fun p => (p.1 - xbar) ^ 2)).sum
    if sxx = 0 then none
    else some ((v.map (fun p => (p.1 - xbar) * (p.2 - ybar))).sum / sxx)
  else none

/-! ## Supporting lemmas -/

/-- Dropping while a predicate holds changes nothing when no element
satisfies it. -/
theorem dropWhile_eq_self_of_all {p : Char → Bool} {l : List Char}
    (h : ∀ c ∈ l, p c = false) : l.dropWhile p = l := by
  cases l with
  | nil => rfl
  | cons c cs => simp [List.dropWhile, h c (by simp)]

/-- Stripping text with no whitespace changes nothing. -/
theorem trimChars_eq_self {l : List Char}
    (h : ∀ c ∈ l, c.isWhitespace = false) : trimChars l = l := by
  unfold trimChars
  rw [dropWhile_eq_self_of_all h,
      dropWhile_eq_self_of_all (fun c hc => h c (List.mem_reverse.mp hc)),
      List.reverse_reverse]

/-- Splitting never produces an empty field list. -/
theorem splitOnChar_ne_nil (sep : Char) (l : List Char) :
    splitOnChar sep l ≠ [] := by
  cases l with
  | nil => simp [splitOnChar]
  | cons c cs =>
    simp only [splitOnChar]
    split
    · simp
    · split <;> simp

/-- Splitting text that avoids the separator yields one field. -/
theorem splitOnChar_not_mem {sep : Char} {l : List Char} (h : sep ∉ l) :
    splitOnChar sep l = [l] := by
  induction l with
  | nil => rfl
  | cons c cs ih =>
    have hc : ¬ c = sep := by rintro rfl; exact h (by simp)
    have hcs : splitOnChar sep cs = [cs] := ih (fun hm => h (by simp [hm]))
    simp [splitOnChar, hc, hcs]

/-- Splitting at the first separator occurrence peels off the first
field. -/
theorem splitOnChar_append {sep : Char} {a rest : List Char} (h : sep ∉ a) :
    splitOnChar sep (a ++ sep :: rest) = a :: splitOnChar sep rest := by
  induction a with
  | nil => simp [splitOnChar]
  | cons c cs ih =>
    have hc : ¬ c = sep := by rintro rfl; exact h (by simp)
    have hcs := ih (fun hm => h (by simp [hm]))
    simp [splitOnChar, hc, hcs]

/-- A decimal digit is not whitespace. -/
theorem digit_not_space {c : Char} (h : c.isDigit = true) :
    c.isWhitespace = false := by
  by_cases h1 : c = ' '
  · subst h1; exact absurd h (by decide)
  by_cases h2 : c = '\t'
  · subst h2; exact absurd h (by decide)
  by_cases h3 : c = '\r'
  · subst h3; exact absurd h (by decide)
  by_cases h4 : c = '\n'
  · subst h4; exact absurd h (by decide)
  simp [Char.isWhitespace, h1, h2, h3, h4]

/-- A decimal digit differs from any non-digit character. -/
theorem digit_ne_of {c d : Char} (h : c.isDigit = true)
    (hd : d.isDigit = false) : c ≠ d := by
  rintro rfl
  rw [h] at hd
  simp at hd

/-- `pd.to_numeric` on a non-empty run of digits yields its decimal
value. -/
theorem toNumericChars_digits {l : List Char} (h1 : l ≠ [])
    (h2 : l.all Char.isDigit) :
    toNumericChars l = some (natOfDigits l : ℚ) := by
  have hall : ∀ c ∈ l, c.isDigit = true := by
    simpa [List.all_eq_true] using h2
  have htrim : trimChars l = l :=
    trimChars_eq_self (fun c hc => digit_not_space (hall c hc))
  have hdot : '.' ∉ l := fun hm => absurd (hall '.' hm) (by decide)
  have hhead : l.head? ≠ some '-' ∧ l.head? ≠ some '+' := by
    cases l with
    | nil => simp
    | cons c cs =>
      have hcd := hall c (by simp)
      constructor <;> simp only [List.head?] <;> intro hh <;>
        injection hh with hh <;> exact digit_ne_of hcd (by decide) hh
  unfold toNumericChars
  simp only [htrim, hhead.1, hhead.2, or_self, if_false, false_or, or_false,
    splitOnChar_not_mem hdot]
  simp [h1, h2]

/-- A non-empty run of digits is none of the sentinel tokens. -/
theorem digits_not_bad {l : List Char} (h1 : l ≠ [])
    (h2 : l.all Char.isDigit) : l ∉ hmsBadTokens := by
  intro hmem
  have hexp : hmsBadTokens =
      [[], ['0', ':', '0', '0'], ['0', '0', ':', '0', '0'],
       ['0', ':', '0', '0', ':', '0', '0'],
       ['0', '0', ':', '0', '0', ':', '0', '0'], ['-', '-'],
       ['D', 'N', 'S'], ['D', 'N', 'F'], ['D', 'Q'],
       ['n', 'a', 'n'], ['N', 'o', 'n', 'e'], ['N', 'a', 'N'],
       ['<', 'N', 'A', '>']] := by decide
  rw [hexp] at hmem
  fin_cases hmem
  · exact h1 rfl
  all_goals exact absurd h2 (by decide)

/-! ## Claim C10 — zero clock tokens parse to null -/

/-- C10: every zero-valued clock token (0:00, 00:00, 0:00:00, 00:00:00) is
parsed to null rather than 0 seconds by the bulk time parser, exactly as
the DNS/DNF/DQ sentinels are. -/
theorem c10_zero_clock_tokens_are_null :
    hms_to_sec "0:00" = none ∧ hms_to_sec "00:00" = none ∧
    hms_to_sec "0:00:00" = none ∧ hms_to_sec "00:00:00" = none ∧
    hms_to_sec "DNS" = none ∧ hms_to_sec "DNF" = none ∧
    hms_to_sec "DQ" = none := by
  refine ⟨rfl, rfl, rfl, rfl, rfl, rfl, rfl⟩

/-! ## Claim C3 — behavior on absent raw files -/

/-- C3 counterexample: the df6 processor does not return an empty table
when its raw file is absent — `pd.read_csv` on the fixed path raises, so
the pipeline aborts. -/
theorem c3_counterexample_df6_aborts :
    process_df6 none = Except.error ETLErr.missingFile ∧
    process_df6 none ≠ Except.ok [] :=
  ⟨rfl, fun h => Except.noConfusion h⟩

/-- C3 (amended): when its raw files are absent, the T100 processor and
the Wikipedia processor return an empty table with the full canonical
column set; the df6, CoachCox and TriStat processors read their raw CSVs
unconditionally and abort with a missing-file error instead. -/
theorem c3_absent_source_behavior :
    process_t100 none = Except.ok [] ∧
    process_wiki none = Except.ok [] ∧
    process_df6 none = Except.error ETLErr.missingFile ∧
    process_coachcox none = Except.error ETLErr.missingFile ∧
    process_tristat none = Except.error ETLErr.missingFile :=
  ⟨rfl, rfl, rfl, rfl, rfl⟩

/-! ## Claim C5 — the duration parser -/

/-- C5 counterexample: the string 0:00:00 has the H:MM:SS shape, for which
the claim requires the value 0·3600 + 0·60 + 0 seconds; the parser instead
treats it as a missing-value sentinel and returns null. -/
theorem c5_counterexample_zero_hms :
    hms_to_sec "0:00:00" = none ∧
    hms_to_sec "0:00:00" ≠ some ((0 : ℚ) * 3600 + 0 * 60 + 0) := by
  refine ⟨rfl, ?_⟩
  rw [show hms_to_sec "0:00:00" = none from rfl]
  exact fun h => Option.noConfusion h

/-- C5 (amended): every duration string of shape H:MM:SS parses to
h·3600 + m·60 + s and every MM:SS string to m·60 + s — except the
zero-clock sentinel tokens, which parse to null; a bare numeric string
parses as seconds; and the sentinel non-finish tokens DNS, DNF, DQ, the
empty string and double dash parse to null rather than zero.  Unparseable
text yields a null field (the parser is a total function into an optional
value), never a raised error. -/
theorem c5_duration_parse_rules :
    (∀ a b c : List Char, a ≠ [] → b ≠ [] → c ≠ [] →
      a.all Char.isDigit → b.all Char.isDigit → c.all Char.isDigit →
      (a ++ ':' :: (b ++ ':' :: c)) ∉ hmsBadTokens →
      hms_to_sec (String.mk (a ++ ':' :: (b ++ ':' :: c))) =
        some ((natOfDigits a : ℚ) * 3600 + (natOfDigits b : ℚ) * 60 +
              (natOfDigits c : ℚ))) ∧
    (∀ a b : List Char, a ≠ [] → b ≠ [] →
      a.all Char.isDigit → b.all Char.isDigit →
      (a ++ ':' :: b) ∉ hmsBadTokens →
      hms_to_sec (String.mk (a ++ ':' :: b)) =
        some ((natOfDigits a : ℚ) * 60 + (natOfDigits b : ℚ))) ∧
    (∀ a : List Char, a ≠ [] → a.all Char.isDigit →
      hms_to_sec (String.mk a) = some (natOfDigits a : ℚ)) ∧
    (hms_to_sec "DNS" = none ∧ hms_to_sec "DNF" = none ∧
     hms_to_sec "DQ" = none ∧ hms_to_sec "" = none ∧
     hms_to_sec "--" = none ∧ hms_to_sec "garbage" = none) := by
  have hdigits : ∀ (l : List Char), l.all Char.isDigit = true →
      ∀ c ∈ l, c.isDigit = true := by
    intro l hl
    simpa [List.all_eq_true] using hl
  refine ⟨?_, ?_, ?_, rfl, rfl, rfl, rfl, rfl, rfl⟩
  · intro a b c h1 h2 h3 ha hb hc hbad
    have htrim : trimChars (a ++ ':' :: (b ++ ':' :: c)) =
        a ++ ':' :: (b ++ ':' :: c) := by
      refine trimChars_eq_self ?_
      intro x hx
      simp only [List.mem_append, List.mem_cons] at hx
      rcases hx with hx | rfl | hx | rfl | hx
      · exact digit_not_space (hdigits a ha x hx)
      · decide
      · exact digit_not_space (hdigits b hb x hx)
      · decide
      · exact digit_not_space (hdigits c hc x hx)
    have hca : ':' ∉ a := fun hm => absurd (hdigits a ha ':' hm) (by decide)
    have hcb : ':' ∉ b := fun hm => absurd (hdigits b hb ':' hm) (by decide)
    have hcc : ':' ∉ c := fun hm => absurd (hdigits c hc ':' hm) (by decide)
    have hsplit : splitOnChar ':' (a ++ ':' :: (b ++ ':' :: c)) = [a, b, c] := by
      rw [splitOnChar_append hca, splitOnChar_append hcb, splitOnChar_not_mem hcc]
    unfold hms_to_sec
    rw [show (String.mk (a ++ ':' :: (b ++ ':' :: c))).toList =
        a ++ ':' :: (b ++ ':' :: c) from rfl]
    simp only [htrim, hsplit, if_neg hbad,
      toNumericChars_digits h1 ha, toNumericChars_digits h2 hb,
      toNumericChars_digits h3 hc]
  · intro a b h1 h2 ha hb hbad
    have htrim : trimChars (a ++ ':' :: b) = a ++ ':' :: b := by
      refine trimChars_eq_self ?_
      intro x hx
      simp only [List.mem_append, List.mem_cons] at hx
      rcases hx with hx | rfl | hx
      · exact digit_not_space (hdigits a ha x hx)
      · decide
      · exact digit_not_space (hdigits b hb x hx)
    have hca : ':' ∉ a := fun hm => absurd (hdigits a ha ':' hm) (by decide)
    have hcb : ':' ∉ b := fun hm => absurd (hdigits b hb ':' hm) (by decide)
    have hsplit : splitOnChar ':' (a ++ ':' :: b) = [a, b] := by
      rw [splitOnChar_append hca, splitOnChar_not_mem hcb]
    unfold hms_to_sec
    rw [show (String.mk (a ++ ':' :: b)).toList = a ++ ':' :: b from rfl]
    simp only [htrim, hsplit, if_neg hbad,
      toNumericChars_digits h1 ha, toNumericChars_digits h2 hb]
  · intro a h1 ha
    have htrim : trimChars a = a :=
      trimChars_eq_self (fun c hc => digit_not_space (hdigits a ha c hc))
    have hca : ':' ∉ a := fun hm => absurd (hdigits a ha ':' hm) (by decide)
    unfold hms_to_sec
    rw [show (String.mk a).toList = a from rfl]
    simp only [htrim, splitOnChar_not_mem hca, if_neg (digits_not_bad h1 ha)]
    exact toNumericChars_digits h1 ha

/-- C5 witness: the three parsing rules at concrete inputs — 1:02:03 is
3723 seconds, 45:06 is 2706 seconds, and bare 90 is 90 seconds. -/
theorem c5_duration_parse_rules_witness :
    hms_to_sec "1:02:03" = some 3723 ∧ hms_to_sec "45:06" = some 2706 ∧
    hms_to_sec "90" = some 90 := by
  refine ⟨?_, ?_, ?_⟩
  · have hp := c5_duration_parse_rules.1 ['1'] ['0', '2'] ['0', '3']
      (by decide) (by decide) (by decide) (by decide) (by decide) (by decide)
      (by decide)
    have e1 : natOfDigits ['1'] = 1 := by decide
    have e2 : natOfDigits ['0', '2'] = 2 := by decide
    have e3 : natOfDigits ['0', '3'] = 3 := by decide
    rw [show ("1:02:03" : String) =
        String.mk (['1'] ++ ':' :: (['0', '2'] ++ ':' :: ['0', '3'])) from rfl]
    rw [hp, e1, e2, e3]
    norm_num
  · have hp := c5_duration_parse_rules.2.1 ['4', '5'] ['0', '6']
      (by decide) (by decide) (by decide) (by decide) (by decide)
    have e1 : natOfDigits ['4', '5'] = 45 := by decide
    have e2 : natOfDigits ['0', '6'] = 6 := by decide
    rw [show ("45:06" : String) = String.mk (['4', '5'] ++ ':' :: ['0', '6']) from rfl]
    rw [hp, e1, e2]
    norm_num
  · have hp := c5_duration_parse_rules.2.2.1 ['9', '0'] (by decide) (by decide)
    have e1 : natOfDigits ['9', '0'] = 90 := by decide
    rw [show ("90" : String) = String.mk ['9', '0'] from rfl]
    rw [hp, e1]
    norm_num

/-! ## Claim C2 — the quality filter -/

/-- A `between` mask cell is true exactly on a present in-bound value. -/
theorem betweenOpt_iff {v : Option ℚ} {b : ℚ × ℚ} :
    betweenOpt v b = true ↔ ∃ x, v = some x ∧ b.1 ≤ x ∧ x ≤ b.2 := by
  cases v <;> simp [betweenOpt]

/-- A present-within mask cell is true exactly when any present value is
in bound. -/
theorem presentWithin_iff {v : Option ℚ} {b : ℚ × ℚ} :
    presentWithin v b = true ↔ ∀ x, v = some x → b.1 ≤ x ∧ x ≤ b.2 := by
  cases v <;> simp [presentWithin]

/-- With a positive total, a percentage mask cell is true exactly when any
present segment share is in bound. -/
theorem pctWithin_iff {t0 : ℚ} (ht : 0 < t0) {v tot : Option ℚ}
    (htot : tot = some t0) :
    pctWithin v tot = true ↔
      ∀ x t, v = some x → tot = some t →
        B_pct.1 ≤ x / t ∧ x / t ≤ B_pct.2 := by
  subst htot
  cases v with
  | none => simp [pctWithin]
  | some x =>
    have h0 : ¬ (x = 0 ∧ t0 = 0) := by rintro ⟨_, rfl⟩; exact lt_irrefl 0 ht
    simp [pctWithin, h0]

/-- The row mask of the quality filter holds exactly when the claim's
retention condition does. -/
theorem qualityKeep_iff_claim (r : RaceRow) :
    qualityKeep r = true ↔ QualityClaimKeep r := by
  unfold qualityKeep QualityClaimKeep
  simp only [Bool.and_eq_true]
  constructor
  · rintro ⟨⟨⟨⟨⟨⟨⟨⟨h1, h2⟩, h3⟩, h4⟩, h5⟩, h6⟩, h7⟩, h8⟩, h9⟩
    obtain ⟨t, htot, hlo, hhi⟩ := betweenOpt_iff.mp h1
    have hpos : 0 < t := lt_of_lt_of_le (by norm_num [B_total]) hlo
    exact ⟨⟨t, htot, hlo, hhi⟩, presentWithin_iff.mp h2, presentWithin_iff.mp h3,
      presentWithin_iff.mp h4, presentWithin_iff.mp h5, presentWithin_iff.mp h6,
      (pctWithin_iff hpos htot).mp h7, (pctWithin_iff hpos htot).mp h8,
      (pctWithin_iff hpos htot).mp h9⟩
  · rintro ⟨⟨t, htot, hlo, hhi⟩, h2, h3, h4, h5, h6, h7, h8, h9⟩
    have hpos : 0 < t := lt_of_lt_of_le (by norm_num [B_total]) hlo
    exact ⟨⟨⟨⟨⟨⟨⟨⟨betweenOpt_iff.mpr ⟨t, htot, hlo, hhi⟩,
      presentWithin_iff.mpr h2⟩, presentWithin_iff.mpr h3⟩,
      presentWithin_iff.mpr h4⟩, presentWithin_iff.mpr h5⟩,
      presentWithin_iff.mpr h6⟩, (pctWithin_iff hpos htot).mpr h7⟩,
      (pctWithin_iff hpos htot).mpr h8⟩, (pctWithin_iff hpos htot).mpr h9⟩

/-- C2: on every table, the quality filter retains exactly the rows where
the total duration is inside the global bound, every present leg duration
is inside its own bound (transitions inside the transition bound), and
every present race-leg share of the total is within 5–65 percent; in
particular a row with total duration 3299 (below the bound) or 68401
(above the bound) is rejected, as is a row whose swim is 80 percent of its
total. -/
theorem c2_quality_filter_retention :
    (∀ (df : List RaceRow) (r : RaceRow),
      r ∈ quality_filter df ↔ r ∈ df ∧ QualityClaimKeep r) ∧
    qualityKeep { total_sec := some 3299 } = false ∧
    qualityKeep { total_sec := some 68401 } = false ∧
    qualityKeep { total_sec := some 10000, swim_sec := some 8000 } = false := by
  refine ⟨?_, ?_, ?_, ?_⟩
  · intro df r
    rw [quality_filter, List.mem_filter, qualityKeep_iff_claim]
  · have h1 : betweenOpt (some 3299) B_total = false := by
      simp only [betweenOpt, B_total]
      rw [decide_eq_false_iff_not]
      norm_num
    simp [qualityKeep, h1]
  · have h1 : betweenOpt (some 68401) B_total = false := by
      simp only [betweenOpt, B_total]
      rw [decide_eq_false_iff_not]
      norm_num
    simp [qualityKeep, h1]
  · have h1 : pctWithin (some 8000) (some 10000) = false := by
      simp only [pctWithin, B_pct]
      rw [if_neg (by norm_num), decide_eq_false_iff_not]
      norm_num
    simp [qualityKeep, h1]

/-! ## Claim C6 — the identity hasher -/

/-- A SHA-256 digest consists of eight words. -/
theorem sha256Words_length (m : List ℕ) : (sha256Words m).length = 8 := by
  unfold sha256Words
  rcases (chunksOf 64 (sha2Pad m)).foldl sha2Block sha2H0 with
    ⟨a, b, c, d, e, f, g, h⟩
  rfl

/-- Each digest word prints as eight hex characters. -/
theorem wordHexChars_length (w : ℕ) : (wordHexChars w).length = 8 := rfl

/-- The truncated hex digest always has sixteen characters. -/
theorem sha256hex16_length (k : String) : (sha256hex16 k).length = 16 := by
  have key : ∀ ws : List ℕ, ((ws.map wordHexChars).flatten).length = 8 * ws.length := by
    intro ws
    induction ws with
    | nil => rfl
    | cons w rest ih =>
      simp only [List.map_cons, List.flatten_cons, List.length_append,
        wordHexChars_length, ih, List.length_cons]
      ring
  have h64 : ((( sha256Words (strBytes k)).map wordHexChars).flatten).length = 64 := by
    rw [key, sha256Words_length]
  show (((sha256Words (strBytes k)).map wordHexChars).flatten.take 16).length = 16
  rw [List.length_take, h64]
  decide

/-- C6 counterexample: at name a, country c, gender m the hasher digests
the key a|c|M — the gender is upper-cased — which differs from the digest
of the fully lower-cased concatenation a|c|m that the claim describes. -/
theorem c6_counterexample_gender_uppercased :
    hash_athletes (some "a") (some "c") (some "m") = some "c55b3afb3538a722" ∧
    (hashKeyLowerSpec (some "a") (some "c") (some "m")).map sha256hex16 =
      some "400ff127906ef4a8" ∧
    hash_athletes (some "a") (some "c") (some "m") ≠
      (hashKeyLowerSpec (some "a") (some "c") (some "m")).map sha256hex16 := by
  have h1 : hash_athletes (some "a") (some "c") (some "m") =
      some "c55b3afb3538a722" := by decide
  have h2 : (hashKeyLowerSpec (some "a") (some "c") (some "m")).map sha256hex16 =
      some "400ff127906ef4a8" := by decide
  refine ⟨h1, h2, ?_⟩
  rw [h1, h2]
  intro h
  exact absurd (Option.some.inj h) (by decide)

/-- C6 (amended): the identity hasher is a pure function returning the
first sixteen hex characters of the SHA-256 digest of the key formed from
the lower-cased trimmed name, the lower-cased trimmed country, and the
UPPER-cased trimmed gender, joined by pipes; a record whose name is
missing, empty, or all whitespace yields a null identity rather than a
hash of the empty key; and every produced digest has exactly sixteen
characters. -/
theorem c6_identity_hasher :
    (∀ n c g : Option String, hash_athletes n c g =
      if 0 < (fillTrimLower n).length then
        some (sha256hex16
          (fillTrimLower n ++ "|" ++ fillTrimLower c ++ "|" ++ fillTrimUpper g))
      else none) ∧
    (∀ n c g : Option String,
      (fillTrimLower n).length = 0 → hash_athletes n c g = none) ∧
    (∀ c g : Option String,
      hash_athletes none c g = none ∧ hash_athletes (some "  ") c g = none) ∧
    (∀ (n c g : Option String) (s : String),
      hash_athletes n c g = some s → s.length = 16) := by
  have hform : ∀ n c g : Option String, hash_athletes n c g =
      if 0 < (fillTrimLower n).length then
        some (sha256hex16
          (fillTrimLower n ++ "|" ++ fillTrimLower c ++ "|" ++ fillTrimUpper g))
      else none := by
    intro n c g
    unfold hash_athletes hashKey
    by_cases h : 0 < (fillTrimLower n).length <;> simp [h]
  refine ⟨hform, ?_, ?_, ?_⟩
  · intro n c g h0
    rw [hform, if_neg (by rw [h0]; exact lt_irrefl 0)]
  · intro c g
    constructor
    · rw [hform, if_neg (by decide)]
    · rw [hform, if_neg (by decide)]
  · intro n c g s hs
    rw [hform] at hs
    by_cases h : 0 < (fillTrimLower n).length
    · rw [if_pos h] at hs
      rw [← Option.some.inj hs]
      exact sha256hex16_length _
    · rw [if_neg h] at hs
      exact absurd hs (fun hh => Option.noConfusion hh)

/-- C6 witness: the fixed-length clause at the concrete triple (a, c, m),
whose digest is the sixteen-character string computed above. -/
theorem c6_identity_hasher_witness :
    ("c55b3afb3538a722" : String).length = 16 :=
  c6_identity_hasher.2.2.2 (some "a") (some "c") (some "m") _ (by decide)

/-! ## Claim C4 — CoachCox non-finisher retention -/

/-- A raw CoachCox non-finisher whose overall time is the dash sentinel,
as DNF rows typically are. -/
def c4DashRaw : CCRaw :=
  { finishStatus := some "DNF", overallTime := some "--" }

/-- A raw CoachCox non-finisher with a parseable overall time of 1800
seconds — far below the 3300-second total bound the quality filter
enforces on finishers. -/
def c4SlowRaw : CCRaw :=
  { finishStatus := some "DNF", overallTime := some "1800" }

/-- C4 counterexample: a CoachCox DNF row whose overall time is the dash
sentinel is dropped by the dropna on total duration before the finisher
split, so the processor output is empty — the non-finisher evidence is
silently discarded, not retained. -/
theorem c4_counterexample_dropped_dnf :
    process_coachcox (some ([c4DashRaw], [], [])) = Except.ok [] ∧
    c4DashRaw.finishStatus = some "DNF" := ⟨rfl, rfl⟩

/-- C4 (amended): among the CoachCox rows that survive the initial drop of
rows without a parseable total duration, every non-finisher row is
retained without the quality filter ever being applied to it, while every
finisher row appears in the output exactly when it passes the quality
filter.  (A non-finisher row whose raw total does not parse is dropped by
the dropna, before this distinction.) -/
theorem c4_coachcox_nonfinisher_retention :
    ∀ (raw : List CCRaw) (races : List CCRace) (series : List CCSeries)
      (out : List RaceRow),
      process_coachcox (some (raw, races, series)) = Except.ok out →
      ∀ r ∈ ccParsedRows races series raw,
        (r.finish_status ≠ some "finisher" → r ∈ out) ∧
        (r.finish_status = some "finisher" →
          (r ∈ out ↔ qualityKeep r = true)) := by
  intro raw races series out hout r hr
  have hsplit : out =
      quality_filter ((ccParsedRows races series raw).filter
        (fun r => r.finish_status == some "finisher")) ++
      (ccParsedRows races series raw).filter
        (fun r => r.finish_status != some "finisher") := by
    have := hout.symm
    exact Except.ok.inj this
  subst hsplit
  constructor
  · intro hne
    refine List.mem_append.mpr (Or.inr ?_)
    rw [List.mem_filter]
    exact ⟨hr, by simpa using hne⟩
  · intro heq
    constructor
    · intro hmem
      rcases List.mem_append.mp hmem with hl | hrr
      · exact (List.mem_filter.mp hl).2
      · have := (List.mem_filter.mp hrr).2
        rw [heq] at this
        simp at this
    · intro hkeep
      refine List.mem_append.mpr (Or.inl ?_)
      rw [quality_filter, List.mem_filter]
      exact ⟨List.mem_filter.mpr ⟨hr, by simp [heq]⟩, hkeep⟩

/-- C4 witness: the slow DNF row (total 1800 seconds, outside the total
bound) is nonetheless in the processor output — the quality filter was not
applied to it. -/
theorem c4_coachcox_retention_witness :
    ccRow [] [] c4SlowRaw ∈ [ccRow [] [] c4SlowRaw] ∧
    qualityKeep (ccRow [] [] c4SlowRaw) = false := by
  constructor
  · have h := c4_coachcox_nonfinisher_retention [c4SlowRaw] [] []
      [ccRow [] [] c4SlowRaw] rfl (ccRow [] [] c4SlowRaw)
      (by rw [show ccParsedRows [] [] [c4SlowRaw] = [ccRow [] [] c4SlowRaw] from rfl]
          exact List.mem_singleton_self _)
    exact h.1 (by decide)
  · have htot : (ccRow [] [] c4SlowRaw).total_sec = some 1800 := by
      show hmsOpt (some "1800") = some 1800
      rw [show hmsOpt (some "1800") = toNumericChars "1800".toList from rfl,
          toNumericChars_digits (by decide) (by decide)]
      norm_num
      rfl
    have hb : betweenOpt (ccRow [] [] c4SlowRaw).total_sec B_total = false := by
      rw [htot]
      simp only [betweenOpt, B_total]
      rw [decide_eq_false_iff_not]
      norm_num
    simp [qualityKeep, hb]

/-! ## Claim C9 — DNF statistics -/

/-- A CoachCox row of athlete h with a null finish status. -/
def c9NullStatusRow : RaceRow :=
  { athlete_hash := some "h", source := some "coachcox", finish_status := none }

/-- A CoachCox DNF row of athlete h. -/
def c9DnfRow : RaceRow :=
  { athlete_hash := some "h", source := some "coachcox",
    finish_status := some "dnf" }

/-- A two-race CoachCox history for athlete h: one null status, one DNF. -/
def c9Rows : List RaceRow := [c9NullStatusRow, c9DnfRow]

/-- C9 counterexample: for an athlete with two CoachCox races, one of them
with a null finish status, the code computes dnf_count 2 (a null status
counts as a non-finish) but divides by the count of non-null statuses,
giving dnf_rate 2 — the claim's rate over the total number of CoachCox
races would be 2/2 = 1. -/
theorem c9_counterexample_null_status :
    dnfStats c9Rows "h" = (2, 2) ∧ (dnfStats c9Rows "h").2 ≠ 2 / 2 := by
  have hne : (ccRacesOf c9Rows "h").isEmpty = false := by decide
  have hc : dnfCountOf (ccRacesOf c9Rows "h") = 2 := by decide
  have hs : ccStatusCount (ccRacesOf c9Rows "h") = 1 := by decide
  have heval : dnfStats c9Rows "h" = (2, 2) := by
    unfold dnfStats
    rw [if_neg (by rw [hne]; exact Bool.false_ne_true), hc, hs]
    norm_num
  refine ⟨heval, ?_⟩
  rw [heval]
  norm_num

/-- C9 (amended): dnf_count and dnf_rate are computed exclusively from
CoachCox-sourced races — appending rows from any other source changes
nothing; an athlete with CoachCox races gets dnf_count equal to the number
of those races whose finish_status differs from finisher (null statuses
included) and dnf_rate equal to dnf_count divided by the number of their
CoachCox races with a NON-null finish_status; and every athlete with zero
CoachCox-sourced races gets dnf_count 0 and dnf_rate 0. -/
theorem c9_dnf_statistics :
    (∀ (named : List RaceRow) (h : String),
      ccRacesOf named h = [] → dnfStats named h = (0, 0)) ∧
    (∀ (named : List RaceRow) (h : String),
      ccRacesOf named h ≠ [] →
      dnfStats named h =
        (dnfCountOf (ccRacesOf named h),
         (dnfCountOf (ccRacesOf named h) : ℚ) /
           (ccStatusCount (ccRacesOf named h) : ℚ))) ∧
    (∀ (named extra : List RaceRow) (h : String),
      (∀ r ∈ extra, r.source ≠ some "coachcox") →
      dnfStats (named ++ extra) h = dnfStats named h) := by
  refine ⟨?_, ?_, ?_⟩
  · intro named h hcc
    unfold dnfStats
    rw [hcc]
    rfl
  · intro named h hcc
    unfold dnfStats
    rw [if_neg (fun hh => hcc (List.isEmpty_iff.mp hh))]
  · intro named extra h hx
    have hfil : ccRacesOf (named ++ extra) h = ccRacesOf named h := by
      unfold ccRacesOf
      rw [List.filter_append]
      have hz : extra.filter
          (fun r => r.source == some "coachcox" && r.athlete_hash == some h) = [] := by
        rw [List.filter_eq_nil_iff]
        intro r hr
        simp [hx r hr]
      rw [hz, List.append_nil]
    unfold dnfStats
    rw [hfil]

/-- C9 witness: at the concrete two-race history, the with-races clause
gives the computed pair, and an athlete absent from CoachCox gets zeros. -/
theorem c9_dnf_statistics_witness :
    dnfStats c9Rows "nobody" = (0, 0) ∧
    dnfStats c9Rows "h" =
      (dnfCountOf (ccRacesOf c9Rows "h"),
       (dnfCountOf (ccRacesOf c9Rows "h") : ℚ) /
         (ccStatusCount (ccRacesOf c9Rows "h") : ℚ)) := by
  constructor
  · exact c9_dnf_statistics.1 c9Rows "nobody" (by decide)
  · exact c9_dnf_statistics.2.1 c9Rows "h" (by decide)

/-! ## Claim C7 — the trend slope -/

/-- Expansion of a sum of centered squares. -/
theorem sum_centered_sq (v : List (ℚ × ℚ)) (a : ℚ) :
    (v.map (fun p => (p.1 - a) ^ 2)).sum =
      (v.map (fun p => p.1 ^ 2)).sum - 2 * a * (v.map Prod.fst).sum +
        (v.length : ℚ) * a ^ 2 := by
  induction v with
  | nil => simp
  | cons p t ih =>
    simp only [List.map_cons, List.sum_cons, ih, List.length_cons]
    push_cast
    ring

/-- Expansion of a sum of centered cross-products. -/
theorem sum_centered_mul (v : List (ℚ × ℚ)) (a b : ℚ) :
    (v.map (fun p => (p.1 - a) * (p.2 - b))).sum =
      (v.map (fun p => p.1 * p.2)).sum - b * (v.map Prod.fst).sum -
        a * (v.map Prod.snd).sum + (v.length : ℚ) * (a * b) := by
  induction v with
  | nil => simp
  | cons p t ih =>
    simp only [List.map_cons, List.sum_cons, ih, List.length_cons]
    push_cast
    ring

/-- C7: for every athlete with at least 2 dated races and a non-degenerate
denominator, the closed-form slope over the pre-aggregated sums equals the
slope of a direct least-squares fit on the same (year, total) pairs, which
is then defined; and the slope is null when the athlete has fewer than 2
dated races or the denominator is degenerate. -/
theorem c7_improvement_slope_is_ols :
    (∀ rows : List RaceRow,
      2 ≤ (datedPairs rows).length →
      1 / 1000000 < |slopeDenom (datedPairs rows)| →
      improvement_slope rows = directLSFitSlope (datedPairs rows) ∧
      (directLSFitSlope (datedPairs rows)).isSome = true) ∧
    (∀ rows : List RaceRow,
      ¬ (2 ≤ (datedPairs rows).length ∧
         1 / 1000000 < |slopeDenom (datedPairs rows)|) →
      improvement_slope rows = none) := by
  constructor
  · intro rows h2 habs
    set v := datedPairs rows with hv
    set sx := (v.map Prod.fst).sum with hsx
    set sy := (v.map Prod.snd).sum with hsy
    set sx2 := (v.map (fun p => p.1 ^ 2)).sum with hsx2
    set sxy := (v.map (fun p => p.1 * p.2)).sum with hsxy
    have hd0 : slopeDenom v ≠ 0 := by
      intro h0
      rw [h0, abs_zero] at habs
      norm_num at habs
    have hn0 : (v.length : ℚ) ≠ 0 := by
      have hp : 0 < v.length := lt_of_lt_of_le (by norm_num) h2
      exact_mod_cast Nat.pos_iff_ne_zero.mp hp
    have hdenom : slopeDenom v = (v.length : ℚ) * sx2 - sx ^ 2 := rfl
    have hslope : improvement_slope rows =
        some (((v.length : ℚ) * sxy - sx * sy) / slopeDenom v) := by
      unfold improvement_slope
      rw [if_pos ⟨h2, habs⟩]
    have hsxx : (v.map (fun p => (p.1 - sx / (v.length : ℚ)) ^ 2)).sum =
        slopeDenom v / (v.length : ℚ) := by
      rw [sum_centered_sq, hdenom]
      field_simp
      ring
    have hsxyc : (v.map (fun p =>
        (p.1 - sx / (v.length : ℚ)) * (p.2 - sy / (v.length : ℚ)))).sum =
        ((v.length : ℚ) * sxy - sx * sy) / (v.length : ℚ) := by
      rw [sum_centered_mul]
      field_simp
      ring
    have hsxx0 : (v.map (fun p => (p.1 - sx / (v.length : ℚ)) ^ 2)).sum ≠ 0 := by
      rw [hsxx]
      exact div_ne_zero hd0 hn0
    have hspec : directLSFitSlope v =
        some ((v.map (fun p =>
            (p.1 - sx / (v.length : ℚ)) * (p.2 - sy / (v.length : ℚ)))).sum /
          (v.map (fun p => (p.1 - sx / (v.length : ℚ)) ^ 2)).sum) := by
      unfold directLSFitSlope
      rw [if_pos h2, if_neg hsxx0]
    refine ⟨?_, by rw [hspec]; rfl⟩
    rw [hslope, hspec, hsxyc, hsxx]
    congr 1
    field_simp
  · intro rows hnot
    unfold improvement_slope
    rw [if_neg hnot]

/-- A five-year athlete improving by exactly 60 seconds per year. -/
def c7Rows : List RaceRow :=
  [{ event_year := some 2015, total_sec := some 40240 },
   { event_year := some 2016, total_sec := some 40180 },
   { event_year := some 2017, total_sec := some 40120 },
   { event_year := some 2018, total_sec := some 40060 },
   { event_year := some 2019, total_sec := some 40000 }]

/-- C7 witness: at the synthetic athlete, the vectorized slope equals the
direct fit and both give exactly -60 seconds per year. -/
theorem c7_improvement_slope_witness :
    improvement_slope c7Rows = directLSFitSlope (datedPairs c7Rows) ∧
    improvement_slope c7Rows = some (-60) := by
  have hlist : datedPairs c7Rows =
      [((2015 : ℚ), (40240 : ℚ)), (2016, 40180), (2017, 40120),
       (2018, 40060), (2019, 40000)] := by decide
  have hden : slopeDenom (datedPairs c7Rows) = 50 := by
    rw [hlist]
    unfold slopeDenom
    norm_num
  have h2 : 2 ≤ (datedPairs c7Rows).length := by rw [hlist]; norm_num
  have habs : 1 / 1000000 < |slopeDenom (datedPairs c7Rows)| := by
    rw [hden]
    norm_num
  refine ⟨(c7_improvement_slope_is_ols.1 c7Rows h2 habs).1, ?_⟩
  unfold improvement_slope
  rw [if_pos ⟨h2, habs⟩, hden, hlist]
  norm_num

/-! ## Claim C8 — strength z-scores and the dominant discipline -/

/-- A materialized cohort baseline for (F, 35-39, 70.3). -/
def c8CohortRow : CohortRow :=
  { gender := "F", age_group := "35-39", event_distance := "70.3",
    c_med_total := some 20000, c_std_total := some 400,
    c_med_swim := some 2000, c_med_bike := some 11000,
    c_med_run := some 7000, c_count := 50 }

/-- A one-row cohort table. -/
def c8Cohort : List CohortRow := [c8CohortRow]

/-- An athlete whose modal cohort is materialized and who has swim data. -/
def c8GoodAthlete : List RaceRow :=
  [{ gender := some "F", age_group := some "35-39",
     event_distance := some "70.3", swim_sec := some 1900 }]

/-- An athlete whose modal (gender, age-group, distance) cohort has no
materialized baseline: the left join yields no medians and no standard
deviation, so all three z-scores are missing. -/
def c8OrphanAthlete : List RaceRow :=
  [{ gender := some "M", age_group := some "20-24",
     event_distance := some "140.6", swim_sec := some 1800 }]

/-- C8: each defined strength z-score is computed against the athlete's
modal cohort as minus (athlete mean segment less cohort median segment)
over the cohort standard deviation floored at 300 seconds — but the
dominant-discipline pass crashes: with any athlete whose three z-scores
are all missing (here: one whose modal cohort has no baseline row),
np.nanargmax raises the all-NaN ValueError before the comprehension's
null guard can ever produce the null the claim (and the guard itself)
intends; with only well-scored athletes the pass does name the arg-max
discipline. -/
theorem c8_zscore_and_nanargmax_crash :
    (∀ (cohort : List CohortRow) (m : ModalRow) (g a d : String)
       (cr : CohortRow) (avg med std : ℚ),
      m.gender = some g → m.age_group = some a → m.event_distance = some d →
      cohort.find? (fun c => c.key == (g, a, d)) = some cr →
      cr.c_std_total = some std → m.avg_swim = some avg →
      cr.c_med_swim = some med →
      (zscores cohort m).1 = some (-(avg - med) / max std 300)) ∧
    dominantDiscipline c8Cohort [c8GoodAthlete, c8OrphanAthlete] =
      Except.error "All-NaN slice encountered" ∧
    dominantDiscipline c8Cohort [c8GoodAthlete] = Except.ok [some "swim"] := by
  refine ⟨?_, rfl, rfl⟩
  intro cohort m g a d cr avg med std hg ha hd hfind hstd havg hmed
  unfold zscores
  simp [hg, ha, hd, hfind, hstd, havg, hmed]

/-- C8 witness: the z-score formula instantiated at the concrete athlete
(mean swim 1900) against the concrete cohort (median swim 2000, std 400). -/
theorem c8_zscore_witness :
    (zscores c8Cohort (modalOf c8GoodAthlete)).1 =
      some (-((1900 : ℚ) - 2000) / max 400 300) := by
  refine c8_zscore_and_nanargmax_crash.1 c8Cohort (modalOf c8GoodAthlete)
    "F" "35-39" "70.3" c8CohortRow 1900 2000 400
    (by decide) (by decide) (by decide) (by decide) (by decide) ?_ (by decide)
  show meanQ [(1900 : ℚ)] = some 1900
  unfold meanQ
  norm_num

/-! ## Claim C1 — cohort materialization and dependent null fields -/

/-- Identity-keyed deduplication preserves membership (given enough
fuel). -/
theorem mem_dropDupFuel_id {α : Type} [DecidableEq α] {a : α} :
    ∀ (fuel : ℕ) (l : List α), l.length ≤ fuel →
      (a ∈ dropDupFuel id fuel l ↔ a ∈ l) := by
  intro fuel
  induction fuel with
  | zero =>
    intro l hl
    cases l with
    | nil => simp [dropDupFuel]
    | cons x xs => simp at hl
  | succ n ih =>
    intro l hl
    cases l with
    | nil => simp [dropDupFuel]
    | cons x xs =>
      have hlen : (xs.filter (fun y => id y != id x)).length ≤ n :=
        le_trans (List.length_filter_le _ _) (Nat.succ_le_succ_iff.mp hl)
      simp only [dropDupFuel, List.mem_cons]
      constructor
      · rintro (rfl | hmem)
        · exact Or.inl rfl
        · exact Or.inr (List.mem_of_mem_filter ((ih _ hlen).mp hmem))
      · rintro (rfl | hmem)
        · exact Or.inl rfl
        · by_cases hx : a = x
          · exact Or.inl hx
          · exact Or.inr ((ih _ hlen).mpr
              (List.mem_filter.mpr ⟨hmem, by simp [hx]⟩))

/-- Identity-keyed deduplication preserves membership. -/
theorem mem_dropDuplicatesBy_id {α : Type} [DecidableEq α] {a : α}
    {l : List α} : a ∈ dropDuplicatesBy id l ↔ a ∈ l :=
  mem_dropDupFuel_id l.length l le_rfl

/-- The key of an aggregated cohort row is its grouping key. -/
theorem mkCohortRow_key (df : List RaceRow) (k : String × String × String) :
    (mkCohortRow df k).key = k := by
  rcases k with ⟨g, a, d⟩
  rfl

/-- The canonical part of a derived fact row is its underlying row. -/
theorem mkFact_toRaceRow (df : List RaceRow) (cohort : List CohortRow)
    (r : RaceRow) : (mkFact df cohort r).toRaceRow = r := rfl

/-- The percentile of a row is missing exactly when its cohort key is
incomplete, its total is missing, or its full-table group has fewer than
30 non-null totals. -/
theorem cohortPctl_none_iff (df : List RaceRow) (r : RaceRow) :
    cohortPctl df r = none ↔
      ¬ ∃ k t, cohortKey r = some k ∧ r.total_sec = some t ∧
        30 ≤ (groupTotals df k).length := by
  unfold cohortPctl
  rcases hk : cohortKey r with _ | k
  · simp
  · rcases ht : r.total_sec with _ | t
    · simp
    · by_cases h30 : 30 ≤ (groupTotals df k).length
      · simp [h30]
      · simp [h30]

/-- C1 (amended): in every combine run, a CohortStats row for a (gender,
age-group, event-distance) group is materialized exactly when the group
has at least 30 amateur samples (non-null totals of non-professional
rows); every fact row whose group has no materialized baseline has null
fade_ratio and null implied_bike_if; but cohort_percentile is ranked per
group over ALL rows — professionals included — whenever the group has at
least 30 non-null totals, so a fact row may carry a non-null percentile
although its group has no materialized baseline. -/
theorem c1_cohort_materialization :
    (∀ (sources : List (List RaceRow)) (k : String × String × String),
      (∃ cr ∈ (combine_and_derive sources).2, cr.key = k) ↔
        30 ≤ (cohortTotals (dropDuplicatesBy dedupKey sources.flatten) k).length) ∧
    (∀ (sources : List (List RaceRow)) (f : FactRow),
      f ∈ (combine_and_derive sources).1 →
      findCohort (combine_and_derive sources).2 f.toRaceRow = none →
      f.fade_ratio = none ∧ f.implied_bike_if = none) ∧
    (∀ (sources : List (List RaceRow)) (f : FactRow),
      f ∈ (combine_and_derive sources).1 →
      (f.cohort_percentile = none ↔
        ¬ ∃ k t, cohortKey f.toRaceRow = some k ∧
          f.toRaceRow.total_sec = some t ∧
          30 ≤ (groupTotals (dropDuplicatesBy dedupKey sources.flatten) k).length)) := by
  refine ⟨?_, ?_, ?_⟩
  · intro sources k
    show (∃ cr ∈ cohortStats (dropDuplicatesBy dedupKey sources.flatten),
        cr.key = k) ↔ _
    set df := dropDuplicatesBy dedupKey sources.flatten with hdf
    constructor
    · rintro ⟨cr, hcr, rfl⟩
      have hcr' : cr ∈ ((dropDuplicatesBy id
          ((amateurRows df).filterMap cohortKey)).map (mkCohortRow df)).filter
          (fun c => 30 ≤ c.c_count) := hcr
      obtain ⟨hmem, hcnt⟩ := List.mem_filter.mp hcr'
      obtain ⟨k', hk', rfl⟩ := List.mem_map.mp hmem
      rw [mkCohortRow_key]
      simpa using hcnt
    · intro h30
      have hpos : 0 < (cohortTotals df k).length :=
        lt_of_lt_of_le (by norm_num) h30
      obtain ⟨t, ht⟩ := List.exists_mem_of_length_pos hpos
      obtain ⟨r, hrmem, hrt⟩ := List.mem_filterMap.mp ht
      have hram : r ∈ amateurRows df := (List.mem_filter.mp hrmem).1
      have hrk : cohortKey r = some k := by
        have := (List.mem_filter.mp hrmem).2
        simpa using this
      have hkeys : k ∈ dropDuplicatesBy id ((amateurRows df).filterMap cohortKey) :=
        mem_dropDuplicatesBy_id.mpr (List.mem_filterMap.mpr ⟨r, hram, hrk⟩)
      refine ⟨mkCohortRow df k, ?_, mkCohortRow_key df k⟩
      show mkCohortRow df k ∈ ((dropDuplicatesBy id
          ((amateurRows df).filterMap cohortKey)).map (mkCohortRow df)).filter
          (fun c => 30 ≤ c.c_count)
      refine List.mem_filter.mpr ⟨List.mem_map.mpr ⟨k, hkeys, rfl⟩, ?_⟩
      simpa using h30
  · intro sources f hf hnone
    have hf' : f ∈ (dropDuplicatesBy dedupKey sources.flatten).map
        (mkFact (dropDuplicatesBy dedupKey sources.flatten)
          (cohortStats (dropDuplicatesBy dedupKey sources.flatten))) := hf
    obtain ⟨r, hr, rfl⟩ := List.mem_map.mp hf'
    rw [mkFact_toRaceRow] at hnone
    have hnone' : findCohort (cohortStats
        (dropDuplicatesBy dedupKey sources.flatten)) r = none := hnone
    constructor
    · show (mkFact _ _ r).fade_ratio = none
      unfold mkFact
      rw [hnone']
      rfl
    · show (mkFact _ _ r).implied_bike_if = none
      unfold mkFact
      rw [hnone']
      rfl
  · intro sources f hf
    have hf' : f ∈ (dropDuplicatesBy dedupKey sources.flatten).map
        (mkFact (dropDuplicatesBy dedupKey sources.flatten)
          (cohortStats (dropDuplicatesBy dedupKey sources.flatten))) := hf
    obtain ⟨r, hr, rfl⟩ := List.mem_map.mp hf'
    rw [mkFact_toRaceRow]
    exact cohortPctl_none_iff _ r

/-- A synthetic amateur record in the (F, 35-39, 70.3) group with a
distinct total. -/
def c1Row (i : ℕ) : RaceRow :=
  { gender := some "F", age_group := some "35-39",
    event_distance := some "70.3", is_pro := some false,
    total_sec := some ((10000 + i : ℕ) : ℚ), source := some "synthetic" }

/-- 29 amateurs plus one professional, all in the same group with
distinct totals: 29 amateur samples (no baseline), 30 group totals. -/
def c1Rows : List RaceRow :=
  (List.range 29).map c1Row ++ [{ c1Row 29 with is_pro := some true }]

/-- C1 counterexample: combining a group of 29 amateurs and one
professional materializes no CohortStats row (29 < 30 amateur samples),
yet every fact row of the group receives a non-null cohort_percentile,
because the percentile pass counts professionals: the claim that rows
without a baseline have null cohort_percentile fails here. -/
theorem c1_counterexample_percentile_without_baseline :
    (combine_and_derive [c1Rows]).2 = [] ∧
    ((combine_and_derive [c1Rows]).1.map
      (fun f => f.cohort_percentile)).all Option.isSome = true ∧
    (combine_and_derive [c1Rows]).1.length = 30 := by
  exact ⟨by decide, by decide, by decide⟩

/-- C1 witness: the baseline-dependent clauses at the concrete input —
the first synthetic row's fact row has null fade and implied intensity
(no baseline exists), and its percentile is nonetheless non-null. -/
theorem c1_cohort_materialization_witness :
    (mkFact (dropDuplicatesBy dedupKey [c1Rows].flatten)
        (cohortStats (dropDuplicatesBy dedupKey [c1Rows].flatten))
        (c1Row 0)).fade_ratio = none ∧
    ¬ ((mkFact (dropDuplicatesBy dedupKey [c1Rows].flatten)
        (cohortStats (dropDuplicatesBy dedupKey [c1Rows].flatten))
        (c1Row 0)).cohort_percentile = none) := by
  have hmem : mkFact (dropDuplicatesBy dedupKey [c1Rows].flatten)
      (cohortStats (dropDuplicatesBy dedupKey [c1Rows].flatten)) (c1Row 0) ∈
      (combine_and_derive [c1Rows]).1 :=
    List.mem_map.mpr ⟨c1Row 0, by decide, rfl⟩
  constructor
  · exact (c1_cohort_materialization.2.1 [c1Rows] _ hmem (by decide)).1
  · rw [c1_cohort_materialization.2.2 [c1Rows] _ hmem]
    intro hno
    exact hno ⟨("F", "35-39", "70.3"), ((10000 + 0 : ℕ) : ℚ),
      by decide, by decide, by decide⟩

end RaceDayAI
